import Mathlib

/-!
Verification of the weather-alarm threshold-notification engine
(`weather_alarm_base.py` and its variant subclasses).

The engine is shallowly embedded: Python values appearing in the raw app
configuration are modelled by the inductive type `PyVal`; the validated
runtime structures (recipients, band limits, the cooldown store and the
rate-limit map) are modelled by Lean structures and association lists.
Python numbers are modelled by `ℚ`; timestamps are modelled by `ℚ` numbers
of seconds (the code only ever subtracts and compares them, via
`total_seconds()`).  Fallible operations return `Option`: a `none` result
of `shouldSendNotification`/`updateCooldown` models the `KeyError` raised
when the recipient key is absent from `recipient_cooldowns`, and a `none`
result of `validateConfig` models the `TypeError` raised by `enumerate`
on a non-iterable `limits` value.  External collaborators are parameters:
the notification service is a `String → Bool` oracle saying whether
`call_service("notify/…")` succeeds for a recipient, and the per-variant
value extractor (`_extract_weather_value`) is a `PyVal → Option ℚ`
parameter since the base class leaves it abstract.
-/

/-- A Python value as it can occur in the raw app configuration or a
forecast-service response: `None`, a bool, a number (int and float are
both modelled by `ℚ`), a string, a list, or a string-keyed dict
(modelled as an association list). -/
inductive PyVal where
  | pnone : PyVal
  | pbool : Bool → PyVal
  | pnum : ℚ → PyVal
  | pstr : String → PyVal
  | plist : List PyVal → PyVal
  | pdict : List (String × PyVal) → PyVal

mutual

def PyVal.decEq : (a b : PyVal) → Decidable (a = b)
  | .pnone, .pnone => isTrue rfl
  | .pbool a, .pbool b =>
      match instDecidableEqBool a b with
      | isTrue h => isTrue (by rw [h])
      | isFalse h => isFalse (fun hh => h (PyVal.pbool.inj hh))
  | .pnum a, .pnum b =>
      match instDecidableEqRat a b with
      | isTrue h => isTrue (by rw [h])
      | isFalse h => isFalse (fun hh => h (PyVal.pnum.inj hh))
  | .pstr a, .pstr b =>
      match String.decEq a b with
      | isTrue h => isTrue (by rw [h])
      | isFalse h => isFalse (fun hh => h (PyVal.pstr.inj hh))
  | .plist a, .plist b =>
      match PyVal.decEqList a b with
      | isTrue h => isTrue (by rw [h])
      | isFalse h => isFalse (fun hh => h (PyVal.plist.inj hh))
  | .pdict a, .pdict b =>
      match PyVal.decEqDict a b with
      | isTrue h => isTrue (by rw [h])
      | isFalse h => isFalse (fun hh => h (PyVal.pdict.inj hh))
  | .pnone, .pbool _ => isFalse (fun h => PyVal.noConfusion h)
  | .pnone, .pnum _ => isFalse (fun h => PyVal.noConfusion h)
  | .pnone, .pstr _ => isFalse (fun h => PyVal.noConfusion h)
  | .pnone, .plist _ => isFalse (fun h => PyVal.noConfusion h)
  | .pnone, .pdict _ => isFalse (fun h => PyVal.noConfusion h)
  | .pbool _, .pnone => isFalse (fun h => PyVal.noConfusion h)
  | .pbool _, .pnum _ => isFalse (fun h => PyVal.noConfusion h)
  | .pbool _, .pstr _ => isFalse (fun h => PyVal.noConfusion h)
  | .pbool _, .plist _ => isFalse (fun h => PyVal.noConfusion h)
  | .pbool _, .pdict _ => isFalse (fun h => PyVal.noConfusion h)
  | .pnum _, .pnone => isFalse (fun h => PyVal.noConfusion h)
  | .pnum _, .pbool _ => isFalse (fun h => PyVal.noConfusion h)
  | .pnum _, .pstr _ => isFalse (fun h => PyVal.noConfusion h)
  | .pnum _, .plist _ => isFalse (fun h => PyVal.noConfusion h)
  | .pnum _, .pdict _ => isFalse (fun h => PyVal.noConfusion h)
  | .pstr _, .pnone => isFalse (fun h => PyVal.noConfusion h)
  | .pstr _, .pbool _ => isFalse (fun h => PyVal.noConfusion h)
  | .pstr _, .pnum _ => isFalse (fun h => PyVal.noConfusion h)
  | .pstr _, .plist _ => isFalse (fun h => PyVal.noConfusion h)
  | .pstr _, .pdict _ => isFalse (fun h => PyVal.noConfusion h)
  | .plist _, .pnone => isFalse (fun h => PyVal.noConfusion h)
  | .plist _, .pbool _ => isFalse (fun h => PyVal.noConfusion h)
  | .plist _, .pnum _ => isFalse (fun h => PyVal.noConfusion h)
  | .plist _, .pstr _ => isFalse (fun h => PyVal.noConfusion h)
  | .plist _, .pdict _ => isFalse (fun h => PyVal.noConfusion h)
  | .pdict _, .pnone => isFalse (fun h => PyVal.noConfusion h)
  | .pdict _, .pbool _ => isFalse (fun h => PyVal.noConfusion h)
  | .pdict _, .pnum _ => isFalse (fun h => PyVal.noConfusion h)
  | .pdict _, .pstr _ => isFalse (fun h => PyVal.noConfusion h)
  | .pdict _, .plist _ => isFalse (fun h => PyVal.noConfusion h)

def PyVal.decEqList : (a b : List PyVal) → Decidable (a = b)
  | [], [] => isTrue rfl
  | [], _ :: _ => isFalse (fun h => List.noConfusion h)
  | _ :: _, [] => isFalse (fun h => List.noConfusion h)
  | x :: xs, y :: ys =>
      match PyVal.decEq x y, PyVal.decEqList xs ys with
      | isTrue h1, isTrue h2 => isTrue (by rw [h1, h2])
      | isFalse h1, _ => isFalse (fun h => h1 (List.cons.inj h).1)
      | isTrue _, isFalse h2 => isFalse (fun h => h2 (List.cons.inj h).2)

def PyVal.decEqDict : (a b : List (String × PyVal)) → Decidable (a = b)
  | [], [] => isTrue rfl
  | [], _ :: _ => isFalse (fun h => List.noConfusion h)
  | _ :: _, [] => isFalse (fun h => List.noConfusion h)
  | (k1, v1) :: xs, (k2, v2) :: ys =>
      match String.decEq k1 k2, PyVal.decEq v1 v2, PyVal.decEqDict xs ys with
      | isTrue h1, isTrue h2, isTrue h3 => isTrue (by rw [h1, h2, h3])
      | isFalse h1, _, _ =>
          isFalse (fun h => h1 (congrArg Prod.fst (List.cons.inj h).1))
      | isTrue _, isFalse h2, _ =>
          isFalse (fun h => h2 (congrArg Prod.snd (List.cons.inj h).1))
      | isTrue _, isTrue _, isFalse h3 => isFalse (fun h => h3 (List.cons.inj h).2)

end

instance : DecidableEq PyVal := PyVal.decEq

/-- Python truthiness (`bool(x)`): `None`, `False`, zero, and empty
strings/lists/dicts are falsy, everything else is truthy. -/
def truthy : PyVal → Bool
  | .pnone => false
  | .pbool b => b
  | .pnum q => !(decide (q = 0))
  | .pstr s => !(decide (s = ""))
  | .plist l => !l.isEmpty
  | .pdict d => !d.isEmpty

/-- Python `d.get(k, default)` on a dict. -/
def dictGet (d : List (String × PyVal)) (k : String) (dflt : PyVal) : PyVal :=
  (d.lookup k).getD dflt

/-- Python `isinstance(x, (int, float))`.  In Python `bool` is a subclass
of `int`, so booleans pass this check. -/
def isinstanceNum : PyVal → Bool
  | .pnum _ => true
  | .pbool _ => true
  | _ => false

/-- Numeric value of a Python number for comparisons (`True` counts as 1,
`False` as 0). -/
def toNum : PyVal → ℚ
  | .pnum q => q
  | .pbool b => if b then 1 else 0
  | _ => 0

/-- Iterating a Python value (`for x in v`): lists yield their elements,
strings their characters, dicts their keys; `None`, bools and numbers are
not iterable (`none` models the `TypeError`). -/
def pyIter : PyVal → Option (List PyVal)
  | .plist l => some l
  | .pstr s => some (s.data.map (fun c => PyVal.pstr (String.mk [c])))
  | .pdict d => some (d.map (fun p => PyVal.pstr p.1))
  | _ => none

/-- Python `str(x)`, used where a notification-target value keys the
cooldown/rate-limit maps.  Only the string case occurs in practice; the
other renderings are schematic. -/
def pyStr : PyVal → String
  | .pnone => "None"
  | .pbool b => if b then "True" else "False"
  | .pnum q => toString q
  | .pstr s => s
  | .plist _ => "[list]"
  | .pdict _ => "[dict]"

/-- Python `s.split(':')` on the character list of a string. -/
def splitOnColon : List Char → List (List Char)
  | [] => [[]]
  | c :: rest =>
    let r := splitOnColon rest
    if c = ':' then [] :: r
    else
      match r with
      | [] => [[c]]
      | p :: ps => (c :: p) :: ps

/-- Decimal digits to a natural number; `none` when empty or any
character is not a digit. -/
def digitsVal (cs : List Char) : Option Nat :=
  if cs.isEmpty then none
  else if cs.all Char.isDigit then some (cs.foldl (fun a c => a * 10 + (c.toNat - 48)) 0)
  else none

/-- Strip leading and trailing whitespace from a character list. -/
def stripWS (cs : List Char) : List Char :=
  ((cs.dropWhile Char.isWhitespace).reverse.dropWhile Char.isWhitespace).reverse

/-- Python `int(s)` on a string: optional surrounding whitespace, an
optional sign, then decimal digits; `none` models the `ValueError` on any
other input.  (Underscore digit separators and non-ASCII digits, which
CPython also accepts, are not modelled.) -/
def pyIntOfChars (cs0 : List Char) : Option Int :=
  match stripWS cs0 with
  | '-' :: rest => (digitsVal rest).map (fun n => -(n : Int))
  | '+' :: rest => (digitsVal rest).map (fun n => (n : Int))
  | cs => (digitsVal cs).map (fun n => (n : Int))

/-- The string part of `_validate_time_format`: split on the colon,
require exactly two parts, parse both as Python ints, and check hour in
`[0,23]` and minute in `[0,59]`. -/
def validateTimeFormatStr (s : String) : Bool :=
  match splitOnColon s.data with
  | [p1, p2] =>
    match pyIntOfChars p1, pyIntOfChars p2 with
    | some hour, some minute =>
        decide (0 ≤ hour) && decide (hour ≤ 23) && decide (0 ≤ minute) && decide (minute ≤ 59)
    | _, _ => false
  | _ => false

/-- Models `_validate_time_format`: the value must be a string of shape
`HH:MM`. -/
def validateTimeFormat : PyVal → Bool
  | .pstr s => validateTimeFormatStr s
  | _ => false

/-- The class constant `DEFAULT_TIME_OF_DAY = "18:15"`. -/
def DEFAULT_TIME_OF_DAY : PyVal := .pstr "18:15"

/-- A processed recipient as appended to `self.processed_recipients`:
the resolved notification target (as the string that keys the cooldown
and rate-limit maps), the `startup_message` flag (truthiness of the
configured value, default `True`), and the raw `time_of_day` value
(default `"18:15"`). -/
structure Recipient where
  name : String
  startup_message : Bool
  time_of_day : PyVal
deriving DecidableEq

/-- Models the recipient-processing loop of `_validate_config` (lines
83–108): each recipient must be a non-empty dict; its target is
`recipient.get('notification_target') or recipient.get('name')` and must
be truthy; its `time_of_day` (default `"18:15"`) must pass
`_validate_time_format`.  Returns the processed list, or `none` when the
loop returns `False`. -/
def processRecipients : List PyVal → Option (List Recipient)
  | [] => some []
  | .pdict d :: rest =>
      if d.isEmpty then none
      else
        let nt := dictGet d "notification_target" .pnone
        let target := if truthy nt then nt else dictGet d "name" .pnone
        if !truthy target then none
        else
          let tod := dictGet d "time_of_day" DEFAULT_TIME_OF_DAY
          if !validateTimeFormat tod then none
          else
            (processRecipients rest).map
              (fun l => ⟨pyStr target, truthy (dictGet d "startup_message" (.pbool true)), tod⟩ :: l)
  | _ :: _ => none

/-- A bare non-list recipients value is promoted to a single-element
list (`if not isinstance(self.recipients, list): self.recipients =
[self.recipients]`). -/
def recipItems : PyVal → List PyVal
  | .plist l => l
  | v => [v]

/-- Models the `msg_cooldown` check of `_validate_config` (lines
135–138): an absent or `None` cooldown passes; otherwise it must be
numeric and nonnegative. -/
def cooldownOk (d : List (String × PyVal)) : Bool :=
  match d.lookup "msg_cooldown" with
  | none => true
  | some .pnone => true
  | some c => isinstanceNum c && decide (0 ≤ toNum c)

/-- Models the per-band checks of `_validate_config` (lines 115–142): a
band must be a dict; `gt` (default `0`) and `lt` (default
`float('inf')`, always numeric and strictly above any finite `gt`) must
be numeric with `gt < lt`; the cooldown check must pass. -/
def validateLimit (l : PyVal) : Bool :=
  match l with
  | .pdict d =>
      let gt := dictGet d "gt" (.pnum 0)
      match d.lookup "lt" with
      | none => isinstanceNum gt && cooldownOk d
      | some lt =>
          isinstanceNum gt && isinstanceNum lt && !(decide (toNum gt ≥ toNum lt)) && cooldownOk d
  | _ => false

/-- The band loop of `_validate_config`: every band must pass
`validateLimit` (the loop returns `False` at the first offender). -/
def validateLimits (items : List PyVal) : Bool := items.all validateLimit

/-- The part of `_validate_config` after the `device_id` check: the
recipient checks followed by the band checks. -/
def validateConfigRest (recipients limits : PyVal) : Option Bool :=
  if !truthy recipients then some false
  else
    match processRecipients (recipItems recipients) with
    | none => some false
    | some _ =>
      if !truthy limits then some false
      else
        match pyIter limits with
        | none => none
        | some items => some (validateLimits items)

/-- Models `_validate_config` on the three raw configuration values.
`some b` is the boolean the method returns; `none` models the uncaught
`TypeError` raised by `enumerate(self.limits)` when `limits` is a truthy
non-iterable value (the `try` block sits inside the loop body, so this
exception propagates past the method). -/
def validateConfig (device_id recipients limits : PyVal) : Option Bool :=
  match device_id with
  | .pnone => some false
  | _ => validateConfigRest recipients limits

/-- The string part of the time parse in `_schedule_daily_checks`
(lines 182–183): `hour, minute = map(int, time_of_day.split(':'))`
followed by the `time(hour, minute)` constructor; `none` models the
caught `(ValueError, TypeError)` branch. -/
def schedParseStr (s : String) : Option (Int × Int) :=
  match splitOnColon s.data with
  | [p1, p2] =>
    match pyIntOfChars p1, pyIntOfChars p2 with
    | some hour, some minute =>
        if 0 ≤ hour ∧ hour ≤ 23 ∧ 0 ≤ minute ∧ minute ≤ 59 then some (hour, minute) else none
    | _, _ => none
  | _ => none

/-- Models the time parse of `_schedule_daily_checks` on the stored
`time_of_day` value.  (On a non-string value `.split` would raise an
`AttributeError`; under a validated configuration the value is always a
string, so that case is collapsed into `none` here.) -/
def schedParse : PyVal → Option (Int × Int)
  | .pstr s => schedParseStr s
  | _ => none

/-- Models `_schedule_daily_checks`: walk the processed recipients,
registering one daily check per `time_of_day` value not seen before;
on a parse error the method logs and returns early.  Result: the list of
registered times (in registration order) and whether the loop completed
without the error branch. -/
def schedDaily : List Recipient → List PyVal → List PyVal × Bool
  | [], _ => ([], true)
  | r :: rest, seen =>
    if r.time_of_day ∈ seen then schedDaily rest seen
    else
      match schedParse r.time_of_day with
      | some _ =>
          let out := schedDaily rest (r.time_of_day :: seen)
          (r.time_of_day :: out.1, out.2)
      | none => ([], false)

/-- One observable action performed by `initialize` after successful
validation: the immediate `run_in` check, a `run_daily` registration per
distinct time of day, the daily cleanup registration, and a startup
message per recipient with the flag enabled. -/
inductive InitAction where
  | run_in_check : InitAction
  | run_daily_check (t : PyVal) : InitAction
  | run_daily_cleanup : InitAction
  | startup_message (name : String) : InitAction
deriving DecidableEq

/-- Models the scheduling and dispatch performed by `initialize`: when
`_validate_config` returns anything but `True`, the method returns
before any `run_in`/`run_daily` call and before startup messages, so the
action list is empty. -/
def initActions (device_id recipients limits : PyVal) : List InitAction :=
  match validateConfig device_id recipients limits with
  | some true =>
    match processRecipients (recipItems recipients) with
    | some rs =>
        InitAction.run_in_check ::
          (schedDaily rs []).1.map InitAction.run_daily_check ++
          [InitAction.run_daily_cleanup] ++
          (rs.filter (fun r => r.startup_message)).map (fun r => InitAction.startup_message r.name)
    | none => []
  | _ => []

/-- A band limit dict as it is used after validation: each field is
`some` when the key is present (in which case validation has ensured the
numeric fields really are numeric) and `none` when absent, with the
defaults of the corresponding `limit.get(...)` calls applied at each use
site exactly as in the source. -/
structure Limit where
  gt : Option ℚ := none
  lt : Option ℚ := none
  message : Option String := none
  msg_cooldown : Option ℚ := none
deriving DecidableEq

/-- The base-class `_get_weather_description()` value (subclasses
override it; only the base value is needed here, as a message default). -/
def weatherDescription : String := "Weather value"

/-- The band message used to key cooldown entries:
`triggered_limit.get('message', f'... warning')`. -/
def limitMessage (l : Limit) : String :=
  l.message.getD (weatherDescription ++ " warning")

/-- `self.recipient_cooldowns`: recipient name → (band message →
last-sent timestamp), as a two-level association list. -/
abbrev CooldownStore := List (String × List (String × ℚ))

/-- Python dict assignment `d[k] = v` observed through lookups: the new
binding shadows and removes any previous binding of `k`. -/
def alUpsert {α : Type} (l : List (String × α)) (k : String) (v : α) : List (String × α) :=
  (k, v) :: l.filter (fun p => !(decide (p.1 = k)))

/-- Models `_should_send_notification`: look up the recipient's cooldown
dict (`none` models the `KeyError` when the recipient key is absent),
take the last-sent time for the band message with default
`now - timedelta(seconds=cooldown_seconds)`, and allow the send iff
`now - last >= cooldown_seconds`. -/
def shouldSendNotification (store : CooldownStore) (recipient limit_message : String)
    (cooldown_seconds now : ℚ) : Option Bool :=
  match store.lookup recipient with
  | none => none
  | some inner =>
      let last := (inner.lookup limit_message).getD (now - cooldown_seconds)
      some (decide (now - last ≥ cooldown_seconds))

/-- Models the assignment
`self.recipient_cooldowns[recipient_name][limit_message] = now` (`none`
models the `KeyError` when the recipient key is absent). -/
def updateCooldown (store : CooldownStore) (recipient limit_message : String) (now : ℚ) :
    Option CooldownStore :=
  match store.lookup recipient with
  | none => none
  | some inner => some (alUpsert store recipient (alUpsert inner limit_message now))

/-- The class constant `MIN_NOTIFICATION_INTERVAL = 60` seconds. -/
def minNotificationInterval : ℚ := 60

/-- The mutable engine state: the cooldown store and the per-recipient
rate-limit map `self.last_notification_time`. -/
structure SState where
  cooldowns : CooldownStore
  last_notification_time : List (String × ℚ)
deriving DecidableEq

/-- Models `_check_rate_limit`: allowed when the recipient has no prior
notification or the last one is at least `min_notification_interval`
seconds old. -/
def checkRateLimit (lastNotif : List (String × ℚ)) (recipient : String) (now : ℚ) : Bool :=
  match lastNotif.lookup recipient with
  | none => true
  | some t => decide (now - t ≥ minNotificationInterval)

/-- Models the recipient loop of `_send_notification` (lines 397–417).
`oracle r` says whether `call_service("notify/r", ...)` succeeds; on
failure the exception is caught and the loop continues without updating
either store.  Result: final state, names sent to (in order), and
whether the loop completed (`false` models the uncaught `KeyError` from
`_should_send_notification`, which aborts the loop; state changes made
before the abort persist). -/
def sendLoop (oracle : String → Bool) (limit_message : String) (cooldown_seconds now : ℚ) :
    List Recipient → SState → SState × List String × Bool
  | [], s => (s, [], true)
  | r :: rest, s =>
    match shouldSendNotification s.cooldowns r.name limit_message cooldown_seconds now with
    | none => (s, [], false)
    | some false => sendLoop oracle limit_message cooldown_seconds now rest s
    | some true =>
      if checkRateLimit s.last_notification_time r.name now then
        if oracle r.name then
          match updateCooldown s.cooldowns r.name limit_message now with
          | none => sendLoop oracle limit_message cooldown_seconds now rest s
          | some cd =>
              let s2 : SState := ⟨cd, alUpsert s.last_notification_time r.name now⟩
              let out := sendLoop oracle limit_message cooldown_seconds now rest s2
              (out.1, r.name :: out.2.1, out.2.2)
        else sendLoop oracle limit_message cooldown_seconds now rest s
      else sendLoop oracle limit_message cooldown_seconds now rest s

/-- The class constants `MIN_WEATHER_VALUE = -100` and
`MAX_WEATHER_VALUE = 1000`. -/
def MIN_WEATHER_VALUE : ℚ := -100

def MAX_WEATHER_VALUE : ℚ := 1000

/-- Models `_validate_weather_value` on a numeric value: it must lie in
`[MIN_WEATHER_VALUE, MAX_WEATHER_VALUE]`. -/
def validateWeatherValue (v : ℚ) : Bool :=
  decide (MIN_WEATHER_VALUE ≤ v) && decide (v ≤ MAX_WEATHER_VALUE)

/-- The band test of `_check_weather_limit`:
`limit.get("gt", 0) <= weather_value < limit.get("lt", float('inf'))`
(an absent `lt` is plus-infinity, so only the lower bound applies). -/
def limitMatches (l : Limit) (v : ℚ) : Bool :=
  decide (l.gt.getD 0 ≤ v) &&
    (match l.lt with
     | none => true
     | some q => decide (v < q))

/-- Models `_check_weather_limit`: skip values failing
`_validate_weather_value`; otherwise the first band in table order whose
range contains the value is dispatched (the loop `break`s after it). -/
def checkWeatherLimit (limits : List Limit) (v : ℚ) : Option Limit :=
  if validateWeatherValue v then limits.find? (fun l => limitMatches l v) else none

/-- The default cooldown applied in `_send_notification`:
`triggered_limit.get("msg_cooldown", 86400)`. -/
def limitCooldown (l : Limit) : ℚ := l.msg_cooldown.getD 86400

/-- Models `_check_forecast_data` together with the dispatch it
triggers: non-dict records are skipped, records whose value the
variant extractor `ext` cannot produce are skipped, and each remaining
record dispatches `_send_notification` for its first matching band (the
forecast timestamp only decorates the message text and does not affect
state, so it is not tracked).  Result: final state, all names sent to
across records, and whether the scan completed (an aborted `sendLoop`
propagates its `KeyError`, abandoning the remaining records). -/
def checkForecastData (ext : PyVal → Option ℚ) (oracle : String → Bool)
    (limits : List Limit) (recipients : List Recipient) (now : ℚ) :
    List PyVal → SState → SState × List String × Bool
  | [], s => (s, [], true)
  | .pdict d :: rest, s =>
      match ext (.pdict d) with
      | none => checkForecastData ext oracle limits recipients now rest s
      | some v =>
        match checkWeatherLimit limits v with
        | none => checkForecastData ext oracle limits recipients now rest s
        | some lim =>
            let out1 := sendLoop oracle (limitMessage lim) (limitCooldown lim) now recipients s
            if out1.2.2 then
              let out2 := checkForecastData ext oracle limits recipients now rest out1.1
              (out2.1, out1.2.1 ++ out2.2.1, out2.2.2)
            else (out1.1, out1.2.1, false)
  | _ :: rest, s => checkForecastData ext oracle limits recipients now rest s

/-- The branch cascade of `_extract_forecast_data` after the initial
list unwrapping: a dict with a `forecast` key yields that value, a dict
with a `datetime` key yields the singleton list of the dict, a (still-)
list response is returned as is, anything else yields `None`. -/
def extractCore : PyVal → Option PyVal
  | .pdict d =>
      match d.lookup "forecast" with
      | some v => some v
      | none =>
          match d.lookup "datetime" with
          | some _ => some (.plist [.pdict d])
          | none => none
  | .plist l => some (.plist l)
  | _ => none

/-- Models `_extract_forecast_data`: a non-empty list response is first
replaced by its first element (`response = response[0]`), then the
branch cascade applies.  Total: every unrecognized shape yields `none`
rather than an exception. -/
def extractForecastData (response : PyVal) : Option PyVal :=
  match response with
  | .plist (x :: _) => extractCore x
  | v => extractCore v

/-- Models `_send_startup_messages`: a message is sent to each processed
recipient whose `startup_message` flag is truthy and for whom the
notification call does not raise; the method writes no engine state (in
particular it never touches `last_notification_time`). -/
def sendStartupMessages (oracle : String → Bool) (recipients : List Recipient) (s : SState) :
    SState × List String :=
  (s, (recipients.filter (fun r => r.startup_message && oracle r.name)).map (fun r => r.name))

/-- The cleanup retention window: `timedelta(days=7)` in seconds. -/
def CLEANUP_MAX_AGE : ℚ := 7 * 86400

/-- Models `_cleanup_old_data`: drop every cooldown entry strictly older
than the retention window, then drop recipients left with no entries. -/
def cleanupOldData (store : CooldownStore) (now : ℚ) : CooldownStore :=
  (store.map (fun p => (p.1, p.2.filter (fun q => !(decide (now - q.2 > CLEANUP_MAX_AGE)))))).filter
    (fun p => !p.2.isEmpty)

/-- `_cleanup_old_data` on the full engine state: it reads and writes
only `recipient_cooldowns`. -/
def cleanupStateData (s : SState) (now : ℚ) : SState :=
  ⟨cleanupOldData s.cooldowns now, s.last_notification_time⟩

/-- Models `_initialize_cooldowns`: seed every (recipient, band message)
pair with `now - cooldown`, i.e. a cooldown that has just elapsed.  The
message key here defaults to `"default"` (`limit.get("message",
"default")`), unlike the default used by `_send_notification`. -/
def initCooldowns (recipients : List Recipient) (limits : List Limit) (now : ℚ) : CooldownStore :=
  recipients.foldl
    (fun acc r =>
      alUpsert acc r.name
        (limits.foldl
          (fun inner l => alUpsert inner (l.message.getD "default") (now - limitCooldown l)) []))
    []

/-- The union of the three per-recipient checks of `_validate_config`:
the value is not a dict or an empty dict, the resolved notification
target (`notification_target` or fallback `name`) is falsy, or the
`time_of_day` value (default `"18:15"`) fails the time-format check. -/
def badRecipientItem (r : PyVal) : Bool :=
  match r with
  | .pdict d =>
      d.isEmpty ||
      (let nt := dictGet d "notification_target" .pnone
       let target := if truthy nt then nt else dictGet d "name" .pnone
       !truthy target) ||
      !validateTimeFormat (dictGet d "time_of_day" DEFAULT_TIME_OF_DAY)
  | _ => true

/-- The decision the `_send_notification` loop makes for one recipient,
evaluated at a given state: the cooldown check allows, the rate limit
allows, and the notification call succeeds. -/
def sentPred (oracle : String → Bool) (limit_message : String) (cooldown_seconds now : ℚ)
    (s : SState) (r : Recipient) : Bool :=
  (shouldSendNotification s.cooldowns r.name limit_message cooldown_seconds now == some true) &&
  checkRateLimit s.last_notification_time r.name now && oracle r.name

/-- Two states agree on everything the dispatch loop reads about a
recipient name: its cooldown dict and its rate-limit entry. -/
def AgreeOn (s1 s2 : SState) (n : String) : Prop :=
  s1.cooldowns.lookup n = s2.cooldowns.lookup n ∧
  s1.last_notification_time.lookup n = s2.last_notification_time.lookup n

/-- A sample variant extractor (the shape of the rain subclass's
`_extract_weather_value` on a numeric field) used to instantiate the
extractor parameter of the scan in concrete witnesses. -/
def witnessExtract : PyVal → Option ℚ
  | .pdict d =>
      match d.lookup "precipitation" with
      | some (.pnum q) => some q
      | _ => none
  | _ => none

theorem lookup_filter_ne {α : Type} (l : List (String × α)) (k k' : String) (h : k' ≠ k) :
    (l.filter (fun p => !(decide (p.1 = k)))).lookup k' = l.lookup k' := by
  induction l with
  | nil => simp
  | cons p rest ih =>
    by_cases hp : p.1 = k
    · have h2 : (k' == k) = false := by simp [h]
      simp [List.filter_cons, hp, List.lookup, h2, ih]
    · by_cases hk : k' = p.1
      · simp [List.filter_cons, hp, List.lookup, hk]
      · have h1 : (k' == p.1) = false := by simp [hk]
        simp [List.filter_cons, hp, List.lookup, h1, ih]

theorem lookup_alUpsert_self {α : Type} (l : List (String × α)) (k : String) (v : α) :
    (alUpsert l k v).lookup k = some v := by
  simp [alUpsert, List.lookup]

theorem lookup_alUpsert_ne {α : Type} (l : List (String × α)) (k k' : String) (v : α)
    (h : k' ≠ k) : (alUpsert l k v).lookup k' = l.lookup k' := by
  have h1 : (k' == k) = false := by simp [h]
  simp [alUpsert, List.lookup, h1, lookup_filter_ne l k k' h]

theorem shouldSend_after_update (store store' : CooldownStore) (R M : String) (T c T' : ℚ)
    (h : updateCooldown store R M T = some store') :
    shouldSendNotification store' R M c T' = some (decide (T' - T ≥ c)) := by
  unfold updateCooldown at h
  cases hl : store.lookup R with
  | none => rw [hl] at h; simp at h
  | some inner =>
      rw [hl] at h
      simp only [Option.some.injEq] at h
      subst h
      simp [shouldSendNotification, lookup_alUpsert_self]

/-- C1: after a successful notification send records time `T` for
recipient `R` and band message `M`, the cooldown check
`_should_send_notification(R, M, c, T')` returns `False` whenever
`T' - T < c` and `True` whenever `T' - T ≥ c`. -/
theorem cooldown_gate_after_send (store store' : CooldownStore) (R M : String)
    (c T T' : ℚ) (h : updateCooldown store R M T = some store') :
    (T' - T < c → shouldSendNotification store' R M c T' = some false) ∧
    (T' - T ≥ c → shouldSendNotification store' R M c T' = some true) := by
  have key := shouldSend_after_update store store' R M T c T' h
  constructor
  · intro hlt
    rw [key]
    simp only [Option.some.injEq, decide_eq_false_iff_not]
    exact not_le.mpr hlt
  · intro hge
    rw [key]
    simp [hge]

/-- Witness for C1 at a concrete store: recording time 0 for
(`"r"`, `"m"`) makes the check deny at `T' = 5` and allow at `T' = 12`
for a cooldown of 10 seconds. -/
theorem cooldown_gate_after_send_witness :
    shouldSendNotification [("r", [("m", (0 : ℚ))])] "r" "m" 10 5 = some false ∧
    shouldSendNotification [("r", [("m", (0 : ℚ))])] "r" "m" 10 12 = some true := by
  have hupd : updateCooldown [("r", ([] : List (String × ℚ)))] "r" "m" 0
      = some [("r", [("m", (0 : ℚ))])] := by
    norm_num [updateCooldown, alUpsert, List.lookup]
  exact ⟨(cooldown_gate_after_send _ _ "r" "m" 10 0 5 hupd).1 (by norm_num),
         (cooldown_gate_after_send _ _ "r" "m" 10 0 12 hupd).2 (by norm_num)⟩

/-- C4 (code bug): once `_cleanup_old_data` has pruned all of a
recipient's entries and removed the recipient key, the cooldown check
raises `KeyError` (modelled by `none`) instead of returning `True`:
`self.recipient_cooldowns[recipient]` is indexed without a default. -/
theorem shouldSend_keyerror_after_cleanup :
    cleanupOldData [("alice", [("storm", (0 : ℚ))])] 700000 = [] ∧
    shouldSendNotification (cleanupOldData [("alice", [("storm", (0 : ℚ))])] 700000)
      "alice" "storm" 86400 700000 = none := by
  constructor <;>
    norm_num [cleanupOldData, shouldSendNotification, CLEANUP_MAX_AGE, List.lookup]

/-- C8 (code bug): a truthy non-iterable `limits` value reaches
`enumerate(self.limits)` outside any `try` block, so `_validate_config`
propagates a `TypeError` (modelled by `none`) instead of returning a
verdict. -/
theorem validateConfig_typeerror_on_noniterable_limits :
    validateConfig (.pstr "dev") (.plist [.pdict [("name", .pstr "bob")]]) (.pnum 3) = none := by
  decide

/-- C5 counterexample: for a list response holding two forecast records,
`_extract_forecast_data` returns only the first record (the method
replaces the response by `response[0]`), not the ordered sequence of
both records. -/
theorem extract_list_keeps_only_head :
    extractForecastData
        (.plist [.pdict [("datetime", .pstr "t1")], .pdict [("datetime", .pstr "t2")]])
      = some (.plist [.pdict [("datetime", .pstr "t1")]]) ∧
    some (PyVal.plist [.pdict [("datetime", .pstr "t1")]]) ≠
      some (PyVal.plist [.pdict [("datetime", .pstr "t1")], .pdict [("datetime", .pstr "t2")]]) := by
  constructor
  · rfl
  · decide

/-- C5 amended: a record embedding a `forecast` list yields that list; a
single record with a `datetime` field yields its singleton; a non-empty
list response is decided entirely by its first element (so a
multi-record list yields only data derived from its head); the empty
list is returned as is; and every unrecognized shape — a dict bearing
neither a `forecast` nor a `datetime` key, `None`, a bool, a number, or
a string — yields `None` without raising. -/
theorem extract_forecast_shapes :
    (∀ d v, d.lookup "forecast" = some v → extractForecastData (.pdict d) = some v) ∧
    (∀ d, d.lookup "forecast" = none → (d.lookup "datetime").isSome →
        extractForecastData (.pdict d) = some (.plist [.pdict d])) ∧
    (∀ d, d.lookup "forecast" = none → d.lookup "datetime" = none →
        extractForecastData (.pdict d) = none) ∧
    (∀ x rest, extractForecastData (.plist (x :: rest)) = extractCore x) ∧
    (extractForecastData (.plist []) = some (.plist [])) ∧
    (extractForecastData .pnone = none) ∧
    (∀ b, extractForecastData (.pbool b) = none) ∧
    (∀ q, extractForecastData (.pnum q) = none) ∧
    (∀ s, extractForecastData (.pstr s) = none) := by
  refine ⟨?_, ?_, ?_, fun _ _ => rfl, rfl, rfl, fun _ => rfl, fun _ => rfl, fun _ => rfl⟩
  · intro d v h
    simp [extractForecastData, extractCore, h]
  · intro d h1 h2
    cases hd : d.lookup "datetime" with
    | none => rw [hd] at h2; simp at h2
    | some w => simp [extractForecastData, extractCore, h1, hd]
  · intro d h1 h2
    simp [extractForecastData, extractCore, h1, h2]

/-- Witness for the C5 amended theorem: a dict embedding a `forecast`
list returns the embedded list, a dict with neither a `forecast` nor a
`datetime` key returns `None`, and a bare number returns `None`. -/
theorem extract_forecast_shapes_witness :
    extractForecastData (.pdict [("forecast", .plist [.pnum 1])]) = some (.plist [.pnum 1]) ∧
    extractForecastData (.pdict [("temperature", .pnum 3)]) = none ∧
    extractForecastData (.pnum 5) = none :=
  ⟨extract_forecast_shapes.1 [("forecast", .plist [.pnum 1])] (.plist [.pnum 1]) (by decide),
   extract_forecast_shapes.2.2.1 [("temperature", .pnum 3)] (by decide) (by decide),
   extract_forecast_shapes.2.2.2.2.2.2.2.1 5⟩

theorem find_first_match (v : ℚ) : ∀ (limits : List Limit) (i : Fin limits.length),
    limitMatches (limits.get i) v = true →
    (∀ j : Fin limits.length, (j : ℕ) < (i : ℕ) → limitMatches (limits.get j) v = false) →
    limits.find? (fun l => limitMatches l v) = some (limits.get i)
  | [], i, _, _ => absurd i.isLt (by simp)
  | l :: rest, ⟨0, _⟩, hm, _ => by simp_all [List.find?]
  | l :: rest, ⟨n + 1, hn⟩, hm, hearlier => by
      have hl : limitMatches l v = false :=
        hearlier ⟨0, Nat.zero_lt_succ _⟩ (Nat.zero_lt_succ n)
      have ih := find_first_match v rest ⟨n, Nat.lt_of_succ_lt_succ hn⟩ hm
        (fun j hj => hearlier ⟨j.1 + 1, Nat.succ_lt_succ j.isLt⟩ (Nat.succ_lt_succ hj))
      simp [List.find?, hl, ih]

/-- C2: for an in-range value, `_check_weather_limit` dispatches for
exactly the first band in table order whose half-open range
`gt ≤ v < lt` contains the value (and for no later band), and performs
no dispatch when no band matches. -/
theorem checkWeatherLimit_first_match (limits : List Limit) (v : ℚ)
    (hin : validateWeatherValue v = true) :
    (∀ i : Fin limits.length, limitMatches (limits.get i) v = true →
      (∀ j : Fin limits.length, (j : ℕ) < (i : ℕ) → limitMatches (limits.get j) v = false) →
      checkWeatherLimit limits v = some (limits.get i)) ∧
    ((∀ l ∈ limits, limitMatches l v = false) → checkWeatherLimit limits v = none) := by
  constructor
  · intro i hm hearlier
    rw [checkWeatherLimit, if_pos hin]
    exact find_first_match v limits i hm hearlier
  · intro hnone
    rw [checkWeatherLimit, if_pos hin]
    exact List.find?_eq_none.mpr (fun l hl => by simp [hnone l hl])

/-- Witness for C2: with bands `0 ≤ v < 10` and `5 ≤ v < 20`, the value
`7` selects the first band even though both match, and the value `25`
matches neither band and selects none. -/
theorem checkWeatherLimit_first_match_witness :
    checkWeatherLimit
        [⟨some 0, some 10, some "low", none⟩, ⟨some 5, some 20, some "mid", none⟩] 7
      = some ⟨some 0, some 10, some "low", none⟩ ∧
    checkWeatherLimit
        [⟨some 0, some 10, some "low", none⟩, ⟨some 5, some 20, some "mid", none⟩] 25
      = none := by
  constructor
  · exact (checkWeatherLimit_first_match
        [⟨some 0, some 10, some "low", none⟩, ⟨some 5, some 20, some "mid", none⟩] 7
        (by decide)).1 ⟨0, by decide⟩ (by decide) (by decide)
  · exact (checkWeatherLimit_first_match
        [⟨some 0, some 10, some "low", none⟩, ⟨some 5, some 20, some "mid", none⟩] 25
        (by decide)).2 (by decide)

theorem processRecipients_none_of_bad : ∀ (items : List PyVal),
    (∃ r ∈ items, badRecipientItem r = true) → processRecipients items = none
  | [], h => by simp at h
  | x :: rest, h => by
      rcases h with ⟨r, hr, hbad⟩
      rcases List.mem_cons.mp hr with hhead | htail
      · subst hhead
        cases r with
        | pdict d =>
            simp only [badRecipientItem, Bool.or_eq_true] at hbad
            unfold processRecipients
            by_cases h1 : d.isEmpty
            · simp [h1]
            · rw [if_neg h1]
              by_cases h2 :
                  !truthy (if truthy (dictGet d "notification_target" .pnone)
                    then dictGet d "notification_target" .pnone else dictGet d "name" .pnone)
              · simp only [h2, if_true]
              · rw [if_neg h2]
                by_cases h3 : validateTimeFormat (dictGet d "time_of_day" DEFAULT_TIME_OF_DAY)
                · exfalso
                  rcases hbad with (hb | hb) | hb
                  · exact h1 hb
                  · exact h2 hb
                  · rw [h3] at hb; simp at hb
                · simp [h3]
        | pnone => rfl
        | pbool b => rfl
        | pnum q => rfl
        | pstr s => rfl
        | plist l => rfl
      · have ih := processRecipients_none_of_bad rest ⟨r, htail, hbad⟩
        cases x with
        | pdict d =>
            unfold processRecipients
            by_cases h1 : d.isEmpty
            · simp [h1]
            · rw [if_neg h1]
              by_cases h2 :
                  !truthy (if truthy (dictGet d "notification_target" .pnone)
                    then dictGet d "notification_target" .pnone else dictGet d "name" .pnone)
              · simp only [h2, if_true]
              · rw [if_neg h2]
                by_cases h3 :
                    !validateTimeFormat (dictGet d "time_of_day" DEFAULT_TIME_OF_DAY)
                · simp only [h3, if_true]
                · rw [if_neg h3, ih]
                  rfl
        | pnone => rfl
        | pbool b => rfl
        | pnum q => rfl
        | pstr s => rfl
        | plist l => rfl

theorem validateLimits_false_of_bad (ls : List PyVal) (h : ∃ l ∈ ls, validateLimit l = false) :
    validateLimits ls = false := by
  rcases h with ⟨l, hl, hbad⟩
  rw [validateLimits, List.all_eq_false]
  exact ⟨l, hl, by simp [hbad]⟩

theorem validateConfig_pnone_or_rest (device_id recipients limits : PyVal) :
    validateConfig device_id recipients limits = some false ∨
    validateConfig device_id recipients limits = validateConfigRest recipients limits := by
  cases device_id
  case pnone => exact Or.inl rfl
  all_goals exact Or.inr rfl

/-- C3: any single violated configuration check — missing device
identifier, empty recipient list, a recipient that is not a non-empty
dict or resolves no notification target or has a malformed
`time_of_day`, an empty band list, or a band failing the numeric-bound,
range or cooldown checks — makes `_validate_config` return `False`, and
`initialize` then performs no scheduling and no dispatch. -/
theorem validateConfig_rejects_and_inert (device_id recipients limits : PyVal)
    (h : device_id = PyVal.pnone
       ∨ recipients = PyVal.plist []
       ∨ (∃ r ∈ recipItems recipients, badRecipientItem r = true)
       ∨ limits = PyVal.plist []
       ∨ (∃ ls, limits = PyVal.plist ls ∧ ∃ l ∈ ls, validateLimit l = false)) :
    validateConfig device_id recipients limits = some false ∧
    initActions device_id recipients limits = [] := by
  have hvc : validateConfig device_id recipients limits = some false := by
    rcases h with h | h | h | h | ⟨ls, hls, hbad⟩
    · subst h; rfl
    · rcases validateConfig_pnone_or_rest device_id recipients limits with hv | hv
      · exact hv
      · rw [hv]; subst h; rfl
    · rcases validateConfig_pnone_or_rest device_id recipients limits with hv | hv
      · exact hv
      · rw [hv]
        have hpr := processRecipients_none_of_bad _ h
        by_cases htr : truthy recipients
        · simp [validateConfigRest, htr, hpr]
        · simp [validateConfigRest, htr]
    · rcases validateConfig_pnone_or_rest device_id recipients limits with hv | hv
      · exact hv
      · rw [hv]; subst h
        by_cases htr : truthy recipients
        · cases hp : processRecipients (recipItems recipients) with
          | none => simp [validateConfigRest, htr, hp]
          | some rs => simp [validateConfigRest, htr, hp, truthy]
        · simp [validateConfigRest, htr]
    · rcases validateConfig_pnone_or_rest device_id recipients limits with hv | hv
      · exact hv
      · rw [hv]; subst hls
        have hvl := validateLimits_false_of_bad ls hbad
        by_cases htr : truthy recipients
        · cases hp : processRecipients (recipItems recipients) with
          | none => simp [validateConfigRest, htr, hp]
          | some rs =>
              by_cases htl : truthy (PyVal.plist ls)
              · simp [validateConfigRest, htr, hp, htl, pyIter, hvl]
              · simp [validateConfigRest, htr, hp, htl]
        · simp [validateConfigRest, htr]
  exact ⟨hvc, by simp [initActions, hvc]⟩

/-- Witness for C3 at a concrete rejected configuration: a missing
`device_id` yields a `False` verdict and an empty action list. -/
theorem validateConfig_rejects_and_inert_witness :
    validateConfig PyVal.pnone (.plist [.pdict [("name", .pstr "bob")]]) (.plist [.pdict []])
      = some false ∧
    initActions PyVal.pnone (.plist [.pdict [("name", .pstr "bob")]]) (.plist [.pdict []])
      = [] :=
  validateConfig_rejects_and_inert _ _ _ (Or.inl rfl)

theorem schedParse_of_validateTimeFormat : ∀ (v : PyVal), validateTimeFormat v = true →
    (schedParse v).isSome = true
  | .pstr s, h => by
      have h' : validateTimeFormatStr s = true := h
      show (schedParseStr s).isSome = true
      unfold validateTimeFormatStr at h'
      unfold schedParseStr
      split at h'
      next p1 p2 heq =>
        split at h'
        next hour minute h1 h2 =>
          simp only [Bool.and_eq_true, decide_eq_true_eq] at h'
          have hc : 0 ≤ hour ∧ hour ≤ 23 ∧ 0 ≤ minute ∧ minute ≤ 59 :=
            ⟨h'.1.1.1, h'.1.1.2, h'.1.2, h'.2⟩
          simp [h1, h2, hc]
        next => simp at h'
      next => simp at h'
  | .pnone, h => by simp [validateTimeFormat] at h
  | .pbool b, h => by simp [validateTimeFormat] at h
  | .pnum q, h => by simp [validateTimeFormat] at h
  | .plist l, h => by simp [validateTimeFormat] at h
  | .pdict d, h => by simp [validateTimeFormat] at h

theorem processRecipients_tod_valid : ∀ (items : List PyVal) (rs : List Recipient),
    processRecipients items = some rs → ∀ r ∈ rs, validateTimeFormat r.time_of_day = true
  | [], rs, h => by
      intro r hr
      simp only [processRecipients, Option.some.injEq] at h
      subst h
      simp at hr
  | .pdict d :: rest, rs, h => by
      intro r hr
      unfold processRecipients at h
      by_cases h1 : d.isEmpty
      · rw [if_pos h1] at h; exact absurd h (by simp)
      · rw [if_neg h1] at h
        by_cases h2 :
            !truthy (if truthy (dictGet d "notification_target" .pnone)
              then dictGet d "notification_target" .pnone else dictGet d "name" .pnone)
        · rw [if_pos h2] at h; exact absurd h (by simp)
        · rw [if_neg h2] at h
          by_cases h3 : !validateTimeFormat (dictGet d "time_of_day" DEFAULT_TIME_OF_DAY)
          · rw [if_pos h3] at h; exact absurd h (by simp)
          · rw [if_neg h3] at h
            rcases Option.map_eq_some'.mp h with ⟨l, hl, hrs⟩
            subst hrs
            rcases List.mem_cons.mp hr with hhead | htail
            · subst hhead
              simpa using h3
            · exact processRecipients_tod_valid rest l hl r htail
  | .pnone :: rest, rs, h => by exact absurd h (by simp [processRecipients])
  | .pbool b :: rest, rs, h => by exact absurd h (by simp [processRecipients])
  | .pnum q :: rest, rs, h => by exact absurd h (by simp [processRecipients])
  | .pstr s :: rest, rs, h => by exact absurd h (by simp [processRecipients])
  | .plist l :: rest, rs, h => by exact absurd h (by simp [processRecipients])

theorem schedDaily_complete : ∀ (rs : List Recipient) (seen : List PyVal),
    (∀ r ∈ rs, (schedParse r.time_of_day).isSome = true) →
    (schedDaily rs seen).2 = true ∧
    (∀ t, t ∈ (schedDaily rs seen).1 ↔ (t ∈ rs.map Recipient.time_of_day ∧ t ∉ seen)) ∧
    (schedDaily rs seen).1.Nodup
  | [], seen, _ => by simp [schedDaily]
  | r :: rest, seen, hall => by
      have hr := hall r (List.mem_cons_self r rest)
      by_cases hmem : r.time_of_day ∈ seen
      · have ih := schedDaily_complete rest seen
          (fun x hx => hall x (List.mem_cons_of_mem _ hx))
        simp only [schedDaily, if_pos hmem]
        refine ⟨ih.1, ?_, ih.2.2⟩
        intro t
        rw [ih.2.1 t]
        simp only [List.map_cons, List.mem_cons]
        constructor
        · rintro ⟨ht, hts⟩
          exact ⟨Or.inr ht, hts⟩
        · rintro ⟨ht, hts⟩
          rcases ht with h1 | h1
          · exact absurd (h1 ▸ hmem) hts
          · exact ⟨h1, hts⟩
      · cases hp : schedParse r.time_of_day with
        | none => rw [hp] at hr; simp at hr
        | some pr =>
            have ih := schedDaily_complete rest (r.time_of_day :: seen)
              (fun x hx => hall x (List.mem_cons_of_mem _ hx))
            simp only [schedDaily, if_neg hmem, hp]
            refine ⟨ih.1, ?_, ?_⟩
            · intro t
              simp only [List.map_cons, List.mem_cons]
              constructor
              · rintro (h1 | h1)
                · exact ⟨Or.inl h1, h1 ▸ hmem⟩
                · have h2 := (ih.2.1 t).mp h1
                  refine ⟨Or.inr h2.1, fun hts => h2.2 (List.mem_cons_of_mem _ hts)⟩
              · rintro ⟨h1 | h1, hts⟩
                · exact Or.inl h1
                · by_cases heq : t = r.time_of_day
                  · exact Or.inl heq
                  · exact Or.inr ((ih.2.1 t).mpr
                      ⟨h1, fun hm => (List.mem_cons.mp hm).elim heq hts⟩)
            · rw [List.nodup_cons]
              refine ⟨fun hin => ?_, ih.2.2⟩
              exact ((ih.2.1 _).mp hin).2 (List.mem_cons_self _ _)

/-- C10: for every configuration accepted by `_validate_config`, the
time parse in `_schedule_daily_checks` succeeds for every processed
recipient (the error branch is unreachable), so the loop completes and
registers exactly one daily check per distinct `time_of_day` value. -/
theorem daily_checks_after_validation (device_id recipients limits : PyVal)
    (h : validateConfig device_id recipients limits = some true) :
    ∃ rs, processRecipients (recipItems recipients) = some rs ∧
      (schedDaily rs []).2 = true ∧
      (schedDaily rs []).1.Nodup ∧
      (∀ t, t ∈ (schedDaily rs []).1 ↔ t ∈ rs.map Recipient.time_of_day) := by
  rcases validateConfig_pnone_or_rest device_id recipients limits with hv | hv
  · rw [hv] at h; exact absurd h (by simp)
  · rw [hv] at h
    unfold validateConfigRest at h
    by_cases htr : truthy recipients
    · rw [if_neg (by simp [htr])] at h
      cases hp : processRecipients (recipItems recipients) with
      | none => rw [hp] at h; exact absurd h (by simp)
      | some rs =>
          refine ⟨rs, rfl, ?_⟩
          have hparse : ∀ r ∈ rs, (schedParse r.time_of_day).isSome = true :=
            fun r hrr => schedParse_of_validateTimeFormat _
              (processRecipients_tod_valid _ _ hp r hrr)
          have hs := schedDaily_complete rs [] hparse
          refine ⟨hs.1, hs.2.2, fun t => ?_⟩
          rw [hs.2.1 t]
          simp
    · rw [if_pos (by simp [htr])] at h
      exact absurd h (by simp)

/-- Witness for C10 at a concrete accepted configuration with two
recipients sharing one `time_of_day` and one with another: scheduling
succeeds and registers the two distinct times. -/
theorem daily_checks_after_validation_witness :
    validateConfig (.pstr "dev")
        (.plist [.pdict [("name", .pstr "bob")],
                 .pdict [("name", .pstr "eve"), ("time_of_day", .pstr "07:30")],
                 .pdict [("name", .pstr "kim"), ("time_of_day", .pstr "18:15")]])
        (.plist [.pdict []]) = some true ∧
    ∃ rs, processRecipients (recipItems
        (.plist [.pdict [("name", .pstr "bob")],
                 .pdict [("name", .pstr "eve"), ("time_of_day", .pstr "07:30")],
                 .pdict [("name", .pstr "kim"), ("time_of_day", .pstr "18:15")]])) = some rs ∧
      (schedDaily rs []).2 = true ∧
      (schedDaily rs []).1.Nodup ∧
      (∀ t, t ∈ (schedDaily rs []).1 ↔ t ∈ rs.map Recipient.time_of_day) :=
  ⟨by decide,
   daily_checks_after_validation (.pstr "dev")
     (.plist [.pdict [("name", .pstr "bob")],
              .pdict [("name", .pstr "eve"), ("time_of_day", .pstr "07:30")],
              .pdict [("name", .pstr "kim"), ("time_of_day", .pstr "18:15")]])
     (.plist [.pdict []]) (by decide)⟩

theorem agreeOn_rfl (s : SState) (n : String) : AgreeOn s s n := ⟨rfl, rfl⟩

theorem agreeOn_trans {s1 s2 s3 : SState} {n : String} (h1 : AgreeOn s1 s2 n)
    (h2 : AgreeOn s2 s3 n) : AgreeOn s1 s3 n :=
  ⟨h1.1.trans h2.1, h1.2.trans h2.2⟩

theorem updateCooldown_lookup_ne {store cd : CooldownStore} {R M : String} {t : ℚ}
    (h : updateCooldown store R M t = some cd) {n : String} (hn : n ≠ R) :
    cd.lookup n = store.lookup n := by
  unfold updateCooldown at h
  cases hl : store.lookup R with
  | none => rw [hl] at h; simp at h
  | some inner =>
      rw [hl] at h
      simp only [Option.some.injEq] at h
      subst h
      exact lookup_alUpsert_ne _ _ _ _ hn

theorem updateCooldown_isSome {store cd : CooldownStore} {R M : String} {t : ℚ}
    (h : updateCooldown store R M t = some cd) (n : String) :
    (cd.lookup n).isSome = (store.lookup n).isSome := by
  by_cases hn : n = R
  · subst hn
    unfold updateCooldown at h
    cases hl : store.lookup n with
    | none => rw [hl] at h; simp at h
    | some inner =>
        rw [hl] at h
        simp only [Option.some.injEq] at h
        subst h
        simp [lookup_alUpsert_self, hl]
  · rw [updateCooldown_lookup_ne h hn]

theorem shouldSend_none_iff (store : CooldownStore) (n M : String) (c now : ℚ) :
    shouldSendNotification store n M c now = none ↔ store.lookup n = none := by
  unfold shouldSendNotification
  cases store.lookup n <;> simp

theorem shouldSend_congr {st1 st2 : CooldownStore} (n M : String) (c now : ℚ)
    (h : st1.lookup n = st2.lookup n) :
    shouldSendNotification st1 n M c now = shouldSendNotification st2 n M c now := by
  unfold shouldSendNotification
  rw [h]

theorem checkRateLimit_congr {l1 l2 : List (String × ℚ)} (n : String) (now : ℚ)
    (h : l1.lookup n = l2.lookup n) : checkRateLimit l1 n now = checkRateLimit l2 n now := by
  unfold checkRateLimit
  rw [h]

theorem sentPred_congr (oracle : String → Bool) (M : String) (c now : ℚ) {s t : SState}
    {r : Recipient} (h : AgreeOn s t r.name) :
    sentPred oracle M c now s r = sentPred oracle M c now t r := by
  unfold sentPred
  rw [shouldSend_congr r.name M c now h.1, checkRateLimit_congr r.name now h.2]

theorem sendLoop_frame (oracle : String → Bool) (M : String) (c now : ℚ) :
    ∀ (recips : List Recipient) (s : SState) (n : String),
      n ∉ (sendLoop oracle M c now recips s).2.1 →
      AgreeOn (sendLoop oracle M c now recips s).1 s n
  | [], s, n, _ => ⟨rfl, rfl⟩
  | r :: rest, s, n, hn => by
      unfold sendLoop at hn ⊢
      cases hss : shouldSendNotification s.cooldowns r.name M c now with
      | none => simp only [hss] at hn ⊢; exact ⟨rfl, rfl⟩
      | some b =>
        cases b with
        | false =>
            simp only [hss] at hn ⊢
            exact sendLoop_frame oracle M c now rest s n hn
        | true =>
            simp only [hss] at hn ⊢
            by_cases hrl : checkRateLimit s.last_notification_time r.name now
            · simp only [hrl, if_true] at hn ⊢
              by_cases hor : oracle r.name
              · simp only [hor, if_true] at hn ⊢
                cases hup : updateCooldown s.cooldowns r.name M now with
                | none =>
                    simp only [hup] at hn ⊢
                    exact sendLoop_frame oracle M c now rest s n hn
                | some cd =>
                    simp only [hup, List.mem_cons, not_or] at hn ⊢
                    rcases hn with ⟨hne, hnot⟩
                    refine agreeOn_trans
                      (sendLoop_frame oracle M c now rest
                        ⟨cd, alUpsert s.last_notification_time r.name now⟩ n hnot) ?_
                    exact ⟨updateCooldown_lookup_ne hup hne,
                           lookup_alUpsert_ne _ _ _ _ hne⟩
              · simp only [hor, if_false] at hn ⊢
                exact sendLoop_frame oracle M c now rest s n hn
            · simp only [hrl, if_false] at hn ⊢
              exact sendLoop_frame oracle M c now rest s n hn

theorem sendLoop_sent_lastNotif (oracle : String → Bool) (M : String) (c now : ℚ) :
    ∀ (recips : List Recipient) (s : SState) (n : String),
      n ∈ (sendLoop oracle M c now recips s).2.1 →
      (sendLoop oracle M c now recips s).1.last_notification_time.lookup n = some now
  | [], s, n, hn => by simp [sendLoop] at hn
  | r :: rest, s, n, hn => by
      unfold sendLoop at hn ⊢
      cases hss : shouldSendNotification s.cooldowns r.name M c now with
      | none => simp only [hss] at hn; simp at hn
      | some b =>
        cases b with
        | false =>
            simp only [hss] at hn ⊢
            exact sendLoop_sent_lastNotif oracle M c now rest s n hn
        | true =>
            simp only [hss] at hn ⊢
            by_cases hrl : checkRateLimit s.last_notification_time r.name now
            · simp only [hrl, if_true] at hn ⊢
              by_cases hor : oracle r.name
              · simp only [hor, if_true] at hn ⊢
                cases hup : updateCooldown s.cooldowns r.name M now with
                | none =>
                    simp only [hup] at hn ⊢
                    exact sendLoop_sent_lastNotif oracle M c now rest s n hn
                | some cd =>
                    simp only [hup, List.mem_cons] at hn ⊢
                    by_cases hmem :
                        n ∈ (sendLoop oracle M c now rest
                          ⟨cd, alUpsert s.last_notification_time r.name now⟩).2.1
                    · exact sendLoop_sent_lastNotif oracle M c now rest _ n hmem
                    · rcases hn with hne | hmem2
                      · have hfr := sendLoop_frame oracle M c now rest
                          ⟨cd, alUpsert s.last_notification_time r.name now⟩ n hmem
                        rw [hfr.2]
                        subst hne
                        exact lookup_alUpsert_self _ _ _
                      · exact absurd hmem2 hmem
              · simp only [hor, if_false] at hn ⊢
                exact sendLoop_sent_lastNotif oracle M c now rest s n hn
            · simp only [hrl, if_false] at hn ⊢
              exact sendLoop_sent_lastNotif oracle M c now rest s n hn

theorem sendLoop_keys (oracle : String → Bool) (M : String) (c now : ℚ) :
    ∀ (recips : List Recipient) (s : SState) (n : String),
      ((sendLoop oracle M c now recips s).1.cooldowns.lookup n).isSome
        = (s.cooldowns.lookup n).isSome
  | [], s, n => rfl
  | r :: rest, s, n => by
      unfold sendLoop
      cases hss : shouldSendNotification s.cooldowns r.name M c now with
      | none => simp only []
      | some b =>
        cases b with
        | false =>
            simp only []
            exact sendLoop_keys oracle M c now rest s n
        | true =>
            simp only []
            by_cases hrl : checkRateLimit s.last_notification_time r.name now
            · simp only [hrl, if_true]
              by_cases hor : oracle r.name
              · simp only [hor, if_true]
                cases hup : updateCooldown s.cooldowns r.name M now with
                | none =>
                    simp only []
                    exact sendLoop_keys oracle M c now rest s n
                | some cd =>
                    simp only []
                    rw [sendLoop_keys oracle M c now rest
                      ⟨cd, alUpsert s.last_notification_time r.name now⟩ n]
                    exact updateCooldown_isSome hup n
              · simp only [hor, if_false]
                exact sendLoop_keys oracle M c now rest s n
            · simp only [hrl, if_false]
              exact sendLoop_keys oracle M c now rest s n

theorem sendLoop_ok (oracle : String → Bool) (M : String) (c now : ℚ) :
    ∀ (recips : List Recipient) (s : SState),
      (∀ r ∈ recips, (s.cooldowns.lookup r.name).isSome = true) →
      (sendLoop oracle M c now recips s).2.2 = true
  | [], s, _ => rfl
  | r :: rest, s, hstore => by
      have htail : ∀ r' ∈ rest, (s.cooldowns.lookup r'.name).isSome = true :=
        fun r' h => hstore r' (List.mem_cons_of_mem _ h)
      unfold sendLoop
      cases hss : shouldSendNotification s.cooldowns r.name M c now with
      | none =>
          exfalso
          have h0 := hstore r (List.mem_cons_self r rest)
          rw [(shouldSend_none_iff s.cooldowns r.name M c now).mp hss] at h0
          simp at h0
      | some b =>
        cases b with
        | false =>
            simp only []
            exact sendLoop_ok oracle M c now rest s htail
        | true =>
            simp only []
            by_cases hrl : checkRateLimit s.last_notification_time r.name now
            · simp only [hrl, if_true]
              by_cases hor : oracle r.name
              · simp only [hor, if_true]
                cases hup : updateCooldown s.cooldowns r.name M now with
                | none =>
                    simp only []
                    exact sendLoop_ok oracle M c now rest s htail
                | some cd =>
                    simp only []
                    refine sendLoop_ok oracle M c now rest _ (fun r' h => ?_)
                    show ((⟨cd, alUpsert s.last_notification_time r.name now⟩ :
                        SState).cooldowns.lookup r'.name).isSome = true
                    rw [updateCooldown_isSome hup r'.name]
                    exact htail r' h
              · simp only [hor, if_false]
                exact sendLoop_ok oracle M c now rest s htail
            · simp only [hrl, if_false]
              exact sendLoop_ok oracle M c now rest s htail

theorem sendLoop_sent_eq (oracle : String → Bool) (M : String) (c now : ℚ) :
    ∀ (recips : List Recipient) (s s0 : SState),
      (∀ r ∈ recips, AgreeOn s s0 r.name) →
      (∀ r ∈ recips, (s.cooldowns.lookup r.name).isSome = true) →
      (recips.map Recipient.name).Nodup →
      (sendLoop oracle M c now recips s).2.1
        = (recips.filter (sentPred oracle M c now s0)).map Recipient.name
  | [], s, s0, _, _, _ => rfl
  | r :: rest, s, s0, hagree, hstore, hnd => by
      have hagr := hagree r (List.mem_cons_self r rest)
      have hagtail : ∀ r' ∈ rest, AgreeOn s s0 r'.name :=
        fun r' h => hagree r' (List.mem_cons_of_mem _ h)
      have htail : ∀ r' ∈ rest, (s.cooldowns.lookup r'.name).isSome = true :=
        fun r' h => hstore r' (List.mem_cons_of_mem _ h)
      have hnotin : r.name ∉ rest.map Recipient.name := (List.nodup_cons.mp hnd).1
      have hndtail : (rest.map Recipient.name).Nodup := (List.nodup_cons.mp hnd).2
      have hpred : sentPred oracle M c now s0 r = sentPred oracle M c now s r :=
        (sentPred_congr oracle M c now hagr).symm
      unfold sendLoop
      cases hss : shouldSendNotification s.cooldowns r.name M c now with
      | none =>
          exfalso
          have h0 := hstore r (List.mem_cons_self r rest)
          rw [(shouldSend_none_iff s.cooldowns r.name M c now).mp hss] at h0
          simp at h0
      | some b =>
        cases b with
        | false =>
            have hps : sentPred oracle M c now s r = false := by
              unfold sentPred
              rw [hss]
              rfl
            simp only [List.filter_cons, hpred, hps]
            exact sendLoop_sent_eq oracle M c now rest s s0 hagtail htail hndtail
        | true =>
            simp only []
            by_cases hrl : checkRateLimit s.last_notification_time r.name now
            · by_cases hor : oracle r.name
              · simp only [hrl, hor, if_true]
                cases hup : updateCooldown s.cooldowns r.name M now with
                | none =>
                    exfalso
                    have h0 := hstore r (List.mem_cons_self r rest)
                    unfold updateCooldown at hup
                    cases hl : s.cooldowns.lookup r.name with
                    | none => rw [hl] at h0; simp at h0
                    | some inner => rw [hl] at hup; simp at hup
                | some cd =>
                    simp only []
                    have hps : sentPred oracle M c now s r = true := by
                      unfold sentPred
                      rw [hss, hrl, hor]
                      rfl
                    simp only [List.filter_cons, hpred, hps, if_true, List.map_cons]
                    congr 1
                    refine sendLoop_sent_eq oracle M c now rest
                      ⟨cd, alUpsert s.last_notification_time r.name now⟩ s0 ?_ ?_ hndtail
                    · intro r' h
                      have hne : r'.name ≠ r.name := by
                        intro he
                        exact hnotin (he ▸ List.mem_map_of_mem Recipient.name h)
                      refine agreeOn_trans ?_ (hagtail r' h)
                      exact ⟨updateCooldown_lookup_ne hup hne, lookup_alUpsert_ne _ _ _ _ hne⟩
                    · intro r' h
                      show ((⟨cd, alUpsert s.last_notification_time r.name now⟩ :
                          SState).cooldowns.lookup r'.name).isSome = true
                      rw [updateCooldown_isSome hup r'.name]
                      exact htail r' h
              · simp only [Bool.not_eq_true] at hor
                have hps : sentPred oracle M c now s r = false := by
                  unfold sentPred
                  rw [hss, hor]
                  simp
                simp only [hrl, hor, if_true, if_false, List.filter_cons, hpred, hps]
                exact sendLoop_sent_eq oracle M c now rest s s0 hagtail htail hndtail
            · simp only [Bool.not_eq_true] at hrl
              have hps : sentPred oracle M c now s r = false := by
                unfold sentPred
                rw [hss, hrl]
                simp
              simp only [hrl, if_false, List.filter_cons, hpred, hps]
              exact sendLoop_sent_eq oracle M c now rest s s0 hagtail htail hndtail

theorem name_not_mem_filter_map {recips : List Recipient} {r : Recipient}
    (hnd : (recips.map Recipient.name).Nodup) (hr : r ∈ recips) {p : Recipient → Bool}
    (hp : p r = false) : r.name ∉ (recips.filter p).map Recipient.name := by
  intro hmem
  rcases List.mem_map.mp hmem with ⟨r', hr', hname⟩
  rcases List.mem_filter.mp hr' with ⟨hr'mem, hr'p⟩
  have heq : r' = r := List.inj_on_of_nodup_map hnd hr'mem hr hname
  rw [heq, hp] at hr'p
  exact Bool.noConfusion hr'p

/-- C6: in a dispatch round over recipients with distinct names (all
present in the cooldown store), the loop completes; the recipients
actually sent to are exactly those whose cooldown check, rate-limit
check and notification call all succeed (so a raising send does not
abort the loop over remaining recipients); and for every recipient
blocked by the rate limiter or whose send call raises, both the
cooldown entry for the triggering band message and the rate-limit entry
are left unchanged. -/
theorem sendLoop_no_update_on_block_or_fail (oracle : String → Bool) (M : String)
    (c now : ℚ) (recips : List Recipient) (s : SState)
    (hstore : ∀ r ∈ recips, (s.cooldowns.lookup r.name).isSome = true)
    (hnd : (recips.map Recipient.name).Nodup) :
    (sendLoop oracle M c now recips s).2.2 = true ∧
    (sendLoop oracle M c now recips s).2.1
      = (recips.filter (sentPred oracle M c now s)).map Recipient.name ∧
    ∀ r ∈ recips,
      (checkRateLimit s.last_notification_time r.name now = false ∨ oracle r.name = false) →
      (sendLoop oracle M c now recips s).1.cooldowns.lookup r.name
          = s.cooldowns.lookup r.name ∧
      (sendLoop oracle M c now recips s).1.last_notification_time.lookup r.name
          = s.last_notification_time.lookup r.name := by
  refine ⟨sendLoop_ok oracle M c now recips s hstore,
          sendLoop_sent_eq oracle M c now recips s s
            (fun r _ => agreeOn_rfl s r.name) hstore hnd,
          fun r hr hblock => ?_⟩
  have hps : sentPred oracle M c now s r = false := by
    unfold sentPred
    rcases hblock with hb | hb <;> rw [hb] <;> simp
  have hnotin : r.name ∉ (sendLoop oracle M c now recips s).2.1 := by
    rw [sendLoop_sent_eq oracle M c now recips s s
      (fun r _ => agreeOn_rfl s r.name) hstore hnd]
    exact name_not_mem_filter_map hnd hr hps
  exact sendLoop_frame oracle M c now recips s r.name hnotin

/-- Witness for C6: recipient `"a"`'s send raises (oracle false) while
`"b"`'s succeeds; the loop completes, only `"b"` is sent, and `"a"`'s
entries are unchanged. -/
theorem sendLoop_no_update_on_block_or_fail_witness :
    (sendLoop (fun n => !(n == "a")) "m" 10 100
        [⟨"a", true, .pstr "18:15"⟩, ⟨"b", true, .pstr "18:15"⟩]
        ⟨[("a", []), ("b", [])], []⟩).2.2 = true ∧
    (sendLoop (fun n => !(n == "a")) "m" 10 100
        [⟨"a", true, .pstr "18:15"⟩, ⟨"b", true, .pstr "18:15"⟩]
        ⟨[("a", []), ("b", [])], []⟩).2.1
      = ([⟨"a", true, .pstr "18:15"⟩, ⟨"b", true, .pstr "18:15"⟩].filter
          (sentPred (fun n => !(n == "a")) "m" 10 100 ⟨[("a", []), ("b", [])], []⟩)).map
          Recipient.name ∧
    ∀ r ∈ [(⟨"a", true, .pstr "18:15"⟩ : Recipient), ⟨"b", true, .pstr "18:15"⟩],
      (checkRateLimit ([] : List (String × ℚ)) r.name 100 = false ∨
        (fun n => !(n == "a")) r.name = false) →
      (sendLoop (fun n => !(n == "a")) "m" 10 100
          [⟨"a", true, .pstr "18:15"⟩, ⟨"b", true, .pstr "18:15"⟩]
          ⟨[("a", []), ("b", [])], []⟩).1.cooldowns.lookup r.name
        = (([("a", []), ("b", [])] : CooldownStore)).lookup r.name ∧
      (sendLoop (fun n => !(n == "a")) "m" 10 100
          [⟨"a", true, .pstr "18:15"⟩, ⟨"b", true, .pstr "18:15"⟩]
          ⟨[("a", []), ("b", [])], []⟩).1.last_notification_time.lookup r.name
        = ([] : List (String × ℚ)).lookup r.name :=
  sendLoop_no_update_on_block_or_fail (fun n => !(n == "a")) "m" 10 100
    [⟨"a", true, .pstr "18:15"⟩, ⟨"b", true, .pstr "18:15"⟩]
    ⟨[("a", []), ("b", [])], []⟩ (by decide) (by decide)

/-- C9 counterexample: a startup message is sent to `"bob"` (the sent
list records it) yet `last_notification_time` holds no entry for
`"bob"`, so after a notification of startup kind the rate-limit entry
does not hold the send's timestamp. -/
theorem startup_message_skips_rate_limit_entry :
    (sendStartupMessages (fun _ => true) [⟨"bob", true, .pstr "18:15"⟩]
        ⟨[("bob", [])], []⟩).2 = ["bob"] ∧
    ((sendStartupMessages (fun _ => true) [⟨"bob", true, .pstr "18:15"⟩]
        ⟨[("bob", [])], []⟩).1).last_notification_time.lookup "bob" = none := by
  constructor <;> rfl

/-- C9 amended: the rate-limit entry of a recipient holds the timestamp
of the most recent successful band-notification send (created on the
first such send); startup messages leave the engine state, and in
particular the rate-limit map, unchanged; and the cleanup sweep never
prunes rate-limit entries (it touches only the cooldown store). -/
theorem rate_limit_entry_after_band_send (oracle : String → Bool) (M : String)
    (c now : ℚ) (recips : List Recipient) (s : SState) :
    (∀ n ∈ (sendLoop oracle M c now recips s).2.1,
      (sendLoop oracle M c now recips s).1.last_notification_time.lookup n = some now) ∧
    (∀ startupOracle startupRecips,
      (sendStartupMessages startupOracle startupRecips s).1 = s) ∧
    (∀ t : ℚ, (cleanupStateData s t).last_notification_time = s.last_notification_time) :=
  ⟨fun n hn => sendLoop_sent_lastNotif oracle M c now recips s n hn,
   fun _ _ => rfl,
   fun _ => rfl⟩

/-- Witness for the C9 amended theorem: after a concrete send round at
time 100, the sent recipient's rate-limit entry is 100. -/
theorem rate_limit_entry_after_band_send_witness :
    (sendLoop (fun _ => true) "m" 10 100 [⟨"bob", true, .pstr "18:15"⟩]
        ⟨[("bob", [])], []⟩).1.last_notification_time.lookup "bob" = some 100 :=
  (rate_limit_entry_after_band_send (fun _ => true) "m" 10 100
      [⟨"bob", true, .pstr "18:15"⟩] ⟨[("bob", [])], []⟩).1 "bob"
    (by norm_num [sendLoop, shouldSendNotification, List.lookup, checkRateLimit,
      updateCooldown, alUpsert])

theorem sendLoop_not_sent_blocked (oracle : String → Bool) (M : String) (c now : ℚ) :
    ∀ (recips : List Recipient) (s : SState) (r : Recipient), r ∈ recips →
      (∀ r' ∈ recips, (s.cooldowns.lookup r'.name).isSome = true) →
      r.name ∉ (sendLoop oracle M c now recips s).2.1 →
      sentPred oracle M c now s r = false
  | [], _, r, hr, _, _ => absurd hr (List.not_mem_nil r)
  | r0 :: rest, s, r, hr, hstore, hnotin => by
      have htail : ∀ r' ∈ rest, (s.cooldowns.lookup r'.name).isSome = true :=
        fun r' h => hstore r' (List.mem_cons_of_mem _ h)
      unfold sendLoop at hnotin
      cases hss : shouldSendNotification s.cooldowns r0.name M c now with
      | none =>
          exfalso
          have h0 := hstore r0 (List.mem_cons_self r0 rest)
          rw [(shouldSend_none_iff _ _ M c now).mp hss] at h0
          simp at h0
      | some b =>
        cases b with
        | false =>
            simp only [hss] at hnotin
            rcases List.mem_cons.mp hr with he | htl
            · subst he
              unfold sentPred
              rw [hss]
              rfl
            · exact sendLoop_not_sent_blocked oracle M c now rest s r htl htail hnotin
        | true =>
            simp only [hss] at hnotin
            by_cases hrl : checkRateLimit s.last_notification_time r0.name now
            · simp only [hrl, if_true] at hnotin
              by_cases hor : oracle r0.name
              · simp only [hor, if_true] at hnotin
                cases hup : updateCooldown s.cooldowns r0.name M now with
                | none =>
                    exfalso
                    have h0 := hstore r0 (List.mem_cons_self r0 rest)
                    unfold updateCooldown at hup
                    cases hl : s.cooldowns.lookup r0.name with
                    | none => rw [hl] at h0; simp at h0
                    | some inner => rw [hl] at hup; simp at hup
                | some cd =>
                    simp only [hup, List.mem_cons, not_or] at hnotin
                    rcases hnotin with ⟨hne, hnot⟩
                    rcases List.mem_cons.mp hr with he | htl
                    · exact absurd (congrArg Recipient.name he) hne
                    · have hs2 := sendLoop_not_sent_blocked oracle M c now rest
                        ⟨cd, alUpsert s.last_notification_time r0.name now⟩ r htl
                        (fun r' h => by
                          show ((⟨cd, alUpsert s.last_notification_time r0.name now⟩ :
                              SState).cooldowns.lookup r'.name).isSome = true
                          rw [updateCooldown_isSome hup r'.name]
                          exact htail r' h)
                        hnot
                      have hagree : AgreeOn
                          ⟨cd, alUpsert s.last_notification_time r0.name now⟩ s r.name :=
                        ⟨updateCooldown_lookup_ne hup hne, lookup_alUpsert_ne _ _ _ _ hne⟩
                      rw [← sentPred_congr oracle M c now hagree]
                      exact hs2
              · simp only [hor, if_false] at hnotin
                rcases List.mem_cons.mp hr with he | htl
                · subst he
                  simp only [Bool.not_eq_true] at hor
                  unfold sentPred
                  rw [hor]
                  simp
                · exact sendLoop_not_sent_blocked oracle M c now rest s r htl htail hnotin
            · simp only [hrl, if_false] at hnotin
              rcases List.mem_cons.mp hr with he | htl
              · subst he
                simp only [Bool.not_eq_true] at hrl
                unfold sentPred
                rw [hrl]
                simp
              · exact sendLoop_not_sent_blocked oracle M c now rest s r htl htail hnotin

theorem sendLoop_inert (oracle : String → Bool) (M : String) (c now : ℚ) :
    ∀ (recips : List Recipient) (s : SState),
      (∀ r ∈ recips, (s.cooldowns.lookup r.name).isSome = true) →
      (∀ r ∈ recips, sentPred oracle M c now s r = false) →
      sendLoop oracle M c now recips s = (s, [], true)
  | [], s, _, _ => rfl
  | r0 :: rest, s, hstore, hblocked => by
      have htail : ∀ r' ∈ rest, (s.cooldowns.lookup r'.name).isSome = true :=
        fun r' h => hstore r' (List.mem_cons_of_mem _ h)
      have hbtail : ∀ r' ∈ rest, sentPred oracle M c now s r' = false :=
        fun r' h => hblocked r' (List.mem_cons_of_mem _ h)
      have hb0 := hblocked r0 (List.mem_cons_self r0 rest)
      unfold sendLoop
      cases hss : shouldSendNotification s.cooldowns r0.name M c now with
      | none =>
          exfalso
          have h0 := hstore r0 (List.mem_cons_self r0 rest)
          rw [(shouldSend_none_iff _ _ M c now).mp hss] at h0
          simp at h0
      | some b =>
        cases b with
        | false =>
            simp only []
            exact sendLoop_inert oracle M c now rest s htail hbtail
        | true =>
            simp only []
            by_cases hrl : checkRateLimit s.last_notification_time r0.name now
            · by_cases hor : oracle r0.name
              · exfalso
                unfold sentPred at hb0
                rw [hss, hrl, hor] at hb0
                simp at hb0
              · simp only [hrl, hor, if_true, if_false]
                exact sendLoop_inert oracle M c now rest s htail hbtail
            · simp only [hrl, if_false]
              exact sendLoop_inert oracle M c now rest s htail hbtail

theorem scan_keys (ext : PyVal → Option ℚ) (oracle : String → Bool) (limits : List Limit)
    (recips : List Recipient) (now : ℚ) :
    ∀ (records : List PyVal) (s : SState) (n : String),
      ((checkForecastData ext oracle limits recips now records s).1.cooldowns.lookup n).isSome
        = (s.cooldowns.lookup n).isSome
  | [], _, _ => rfl
  | .pdict d :: rest, s, n => by
      unfold checkForecastData
      cases hext : ext (.pdict d) with
      | none =>
          simp only [hext]
          exact scan_keys ext oracle limits recips now rest s n
      | some v =>
          cases hcwl : checkWeatherLimit limits v with
          | none =>
              simp only [hcwl]
              exact scan_keys ext oracle limits recips now rest s n
          | some lim =>
              simp only [hcwl]
              by_cases hok :
                  (sendLoop oracle (limitMessage lim) (limitCooldown lim) now recips s).2.2 = true
              · simp only [hok, if_true]
                rw [scan_keys ext oracle limits recips now rest _ n]
                exact sendLoop_keys oracle (limitMessage lim) (limitCooldown lim) now recips s n
              · simp only [Bool.not_eq_true] at hok
                simp only [hok, if_false]
                exact sendLoop_keys oracle (limitMessage lim) (limitCooldown lim) now recips s n
  | .pnone :: rest, s, n => scan_keys ext oracle limits recips now rest s n
  | .pbool b :: rest, s, n => scan_keys ext oracle limits recips now rest s n
  | .pnum q :: rest, s, n => scan_keys ext oracle limits recips now rest s n
  | .pstr str :: rest, s, n => scan_keys ext oracle limits recips now rest s n
  | .plist l :: rest, s, n => scan_keys ext oracle limits recips now rest s n

theorem scan_ok (ext : PyVal → Option ℚ) (oracle : String → Bool) (limits : List Limit)
    (recips : List Recipient) (now : ℚ) :
    ∀ (records : List PyVal) (s : SState),
      (∀ r ∈ recips, (s.cooldowns.lookup r.name).isSome = true) →
      (checkForecastData ext oracle limits recips now records s).2.2 = true
  | [], _, _ => rfl
  | .pdict d :: rest, s, hstore => by
      unfold checkForecastData
      cases hext : ext (.pdict d) with
      | none =>
          simp only [hext]
          exact scan_ok ext oracle limits recips now rest s hstore
      | some v =>
          cases hcwl : checkWeatherLimit limits v with
          | none =>
              simp only [hcwl]
              exact scan_ok ext oracle limits recips now rest s hstore
          | some lim =>
              simp only [hcwl]
              have hok := sendLoop_ok oracle (limitMessage lim) (limitCooldown lim) now recips s
                hstore
              simp only [hok, if_true]
              refine scan_ok ext oracle limits recips now rest _ (fun r hr => ?_)
              rw [sendLoop_keys oracle (limitMessage lim) (limitCooldown lim) now recips s r.name]
              exact hstore r hr
  | .pnone :: rest, s, hstore => scan_ok ext oracle limits recips now rest s hstore
  | .pbool b :: rest, s, hstore => scan_ok ext oracle limits recips now rest s hstore
  | .pnum q :: rest, s, hstore => scan_ok ext oracle limits recips now rest s hstore
  | .pstr str :: rest, s, hstore => scan_ok ext oracle limits recips now rest s hstore
  | .plist l :: rest, s, hstore => scan_ok ext oracle limits recips now rest s hstore

theorem scan_frame (ext : PyVal → Option ℚ) (oracle : String → Bool) (limits : List Limit)
    (recips : List Recipient) (now : ℚ) :
    ∀ (records : List PyVal) (s : SState) (n : String),
      n ∉ (checkForecastData ext oracle limits recips now records s).2.1 →
      AgreeOn (checkForecastData ext oracle limits recips now records s).1 s n
  | [], _, _, _ => ⟨rfl, rfl⟩
  | .pdict d :: rest, s, n, hn => by
      revert hn
      unfold checkForecastData
      cases hext : ext (.pdict d) with
      | none =>
          simp only [hext]
          exact scan_frame ext oracle limits recips now rest s n
      | some v =>
          cases hcwl : checkWeatherLimit limits v with
          | none =>
              simp only [hcwl]
              exact scan_frame ext oracle limits recips now rest s n
          | some lim =>
              simp only [hcwl]
              by_cases hok :
                  (sendLoop oracle (limitMessage lim) (limitCooldown lim) now recips s).2.2 = true
              · simp only [hok, if_true, List.mem_append, not_or]
                rintro ⟨h1, h2⟩
                exact agreeOn_trans
                  (scan_frame ext oracle limits recips now rest _ n h2)
                  (sendLoop_frame oracle (limitMessage lim) (limitCooldown lim) now recips s n h1)
              · simp only [Bool.not_eq_true] at hok
                simp only [hok, if_false]
                exact sendLoop_frame oracle (limitMessage lim) (limitCooldown lim) now recips s n
  | .pnone :: rest, s, n, hn => scan_frame ext oracle limits recips now rest s n hn
  | .pbool b :: rest, s, n, hn => scan_frame ext oracle limits recips now rest s n hn
  | .pnum q :: rest, s, n, hn => scan_frame ext oracle limits recips now rest s n hn
  | .pstr str :: rest, s, n, hn => scan_frame ext oracle limits recips now rest s n hn
  | .plist l :: rest, s, n, hn => scan_frame ext oracle limits recips now rest s n hn

theorem scan_sent_lastNotif (ext : PyVal → Option ℚ) (oracle : String → Bool)
    (limits : List Limit) (recips : List Recipient) (now : ℚ) :
    ∀ (records : List PyVal) (s : SState) (n : String),
      n ∈ (checkForecastData ext oracle limits recips now records s).2.1 →
      (checkForecastData ext oracle limits recips now records
        s).1.last_notification_time.lookup n = some now
  | [], _, n, hn => absurd hn (List.not_mem_nil n)
  | .pdict d :: rest, s, n, hn => by
      revert hn
      unfold checkForecastData
      cases hext : ext (.pdict d) with
      | none =>
          simp only [hext]
          exact scan_sent_lastNotif ext oracle limits recips now rest s n
      | some v =>
          cases hcwl : checkWeatherLimit limits v with
          | none =>
              simp only [hcwl]
              exact scan_sent_lastNotif ext oracle limits recips now rest s n
          | some lim =>
              simp only [hcwl]
              by_cases hok :
                  (sendLoop oracle (limitMessage lim) (limitCooldown lim) now recips s).2.2 = true
              · simp only [hok, if_true, List.mem_append]
                intro hn
                by_cases h2 : n ∈ (checkForecastData ext oracle limits recips now rest
                    (sendLoop oracle (limitMessage lim) (limitCooldown lim) now
                      recips s).1).2.1
                · exact scan_sent_lastNotif ext oracle limits recips now rest _ n h2
                · rcases hn with h1 | h1
                  · have hfr := scan_frame ext oracle limits recips now rest
                      (sendLoop oracle (limitMessage lim) (limitCooldown lim) now recips s).1
                      n h2
                    rw [hfr.2]
                    exact sendLoop_sent_lastNotif oracle (limitMessage lim) (limitCooldown lim)
                      now recips s n h1
                  · exact absurd h1 h2
              · simp only [Bool.not_eq_true] at hok
                simp only [hok, if_false]
                exact sendLoop_sent_lastNotif oracle (limitMessage lim) (limitCooldown lim)
                  now recips s n
  | .pnone :: rest, s, n, hn => scan_sent_lastNotif ext oracle limits recips now rest s n hn
  | .pbool b :: rest, s, n, hn => scan_sent_lastNotif ext oracle limits recips now rest s n hn
  | .pnum q :: rest, s, n, hn => scan_sent_lastNotif ext oracle limits recips now rest s n hn
  | .pstr str :: rest, s, n, hn => scan_sent_lastNotif ext oracle limits recips now rest s n hn
  | .plist l :: rest, s, n, hn => scan_sent_lastNotif ext oracle limits recips now rest s n hn

theorem scan_cons_noval (ext : PyVal → Option ℚ) (oracle : String → Bool)
    (limits : List Limit) (recips : List Recipient) (now : ℚ)
    {d : List (String × PyVal)} {rest : List PyVal} {s : SState}
    (hext : ext (.pdict d) = none) :
    checkForecastData ext oracle limits recips now (.pdict d :: rest) s
      = checkForecastData ext oracle limits recips now rest s := by
  rw [checkForecastData]
  simp only [hext]

theorem scan_cons_noband (ext : PyVal → Option ℚ) (oracle : String → Bool)
    (limits : List Limit) (recips : List Recipient) (now : ℚ)
    {d : List (String × PyVal)} {rest : List PyVal} {s : SState} {v : ℚ}
    (hext : ext (.pdict d) = some v) (hcwl : checkWeatherLimit limits v = none) :
    checkForecastData ext oracle limits recips now (.pdict d :: rest) s
      = checkForecastData ext oracle limits recips now rest s := by
  rw [checkForecastData]
  simp only [hext, hcwl]

theorem scan_cons_trigger (ext : PyVal → Option ℚ) (oracle : String → Bool)
    (limits : List Limit) (recips : List Recipient) (now : ℚ)
    {d : List (String × PyVal)} {rest : List PyVal} {s : SState} {v : ℚ} {lim : Limit}
    (hext : ext (.pdict d) = some v) (hcwl : checkWeatherLimit limits v = some lim)
    (hok : (sendLoop oracle (limitMessage lim) (limitCooldown lim) now recips s).2.2 = true) :
    checkForecastData ext oracle limits recips now (.pdict d :: rest) s
      = ((checkForecastData ext oracle limits recips now rest
            (sendLoop oracle (limitMessage lim) (limitCooldown lim) now recips s).1).1,
         (sendLoop oracle (limitMessage lim) (limitCooldown lim) now recips s).2.1 ++
           (checkForecastData ext oracle limits recips now rest
             (sendLoop oracle (limitMessage lim) (limitCooldown lim) now recips s).1).2.1,
         (checkForecastData ext oracle limits recips now rest
           (sendLoop oracle (limitMessage lim) (limitCooldown lim) now recips s).1).2.2) := by
  rw [checkForecastData]
  simp only [hext, hcwl, hok, if_true]

theorem scan_not_sent_blocked (ext : PyVal → Option ℚ) (oracle : String → Bool)
    (limits : List Limit) (recips : List Recipient) (now : ℚ) :
    ∀ (records : List PyVal) (s : SState),
      (∀ r' ∈ recips, (s.cooldowns.lookup r'.name).isSome = true) →
      ∀ r ∈ recips, r.name ∉ (checkForecastData ext oracle limits recips now records s).2.1 →
      ∀ f ∈ records, ∀ (d : List (String × PyVal)) (v : ℚ) (lim : Limit),
        f = PyVal.pdict d → ext f = some v → checkWeatherLimit limits v = some lim →
        sentPred oracle (limitMessage lim) (limitCooldown lim) now s r = false
  | [], _, _, _, _, _, f, hf, _, _, _, _, _, _ => absurd hf (List.not_mem_nil f)
  | .pdict d0 :: rest, s, hstore, r, hr, hnotin, f, hf, d, v, lim, hfd, hextf, hcwlf => by
      cases hext : ext (.pdict d0) with
      | none =>
          rw [scan_cons_noval ext oracle limits recips now hext] at hnotin
          rcases List.mem_cons.mp hf with he | htl
          · exfalso
            rw [he, hext] at hextf
            exact Option.noConfusion hextf
          · exact scan_not_sent_blocked ext oracle limits recips now rest s hstore r hr hnotin
              f htl d v lim hfd hextf hcwlf
      | some v0 =>
          cases hcwl : checkWeatherLimit limits v0 with
          | none =>
              rw [scan_cons_noband ext oracle limits recips now hext hcwl] at hnotin
              rcases List.mem_cons.mp hf with he | htl
              · exfalso
                rw [he, hext] at hextf
                rw [Option.some.inj hextf] at hcwl
                rw [hcwlf] at hcwl
                exact Option.noConfusion hcwl
              · exact scan_not_sent_blocked ext oracle limits recips now rest s hstore r hr
                  hnotin f htl d v lim hfd hextf hcwlf
          | some lim0 =>
              have hok := sendLoop_ok oracle (limitMessage lim0) (limitCooldown lim0) now
                recips s hstore
              rw [scan_cons_trigger ext oracle limits recips now hext hcwl hok] at hnotin
              simp only [List.mem_append, not_or] at hnotin
              rcases hnotin with ⟨h1, h2⟩
              rcases List.mem_cons.mp hf with he | htl
              · rw [he, hext] at hextf
                have hv : v0 = v := Option.some.inj hextf
                rw [hv, hcwlf] at hcwl
                have hlim : lim = lim0 := Option.some.inj hcwl
                rw [hlim]
                exact sendLoop_not_sent_blocked oracle (limitMessage lim0) (limitCooldown lim0)
                  now recips s r hr hstore h1
              · have hkeys : ∀ r' ∈ recips,
                    (((sendLoop oracle (limitMessage lim0) (limitCooldown lim0) now recips
                      s).1).cooldowns.lookup r'.name).isSome = true := fun r' h => by
                  rw [sendLoop_keys oracle (limitMessage lim0) (limitCooldown lim0) now recips
                    s r'.name]
                  exact hstore r' h
                have hsub := scan_not_sent_blocked ext oracle limits recips now rest
                  (sendLoop oracle (limitMessage lim0) (limitCooldown lim0) now recips s).1
                  hkeys r hr h2 f htl d v lim hfd hextf hcwlf
                have hagree : AgreeOn
                    (sendLoop oracle (limitMessage lim0) (limitCooldown lim0) now recips s).1
                    s r.name :=
                  sendLoop_frame oracle (limitMessage lim0) (limitCooldown lim0) now recips s
                    r.name h1
                rw [← sentPred_congr oracle (limitMessage lim) (limitCooldown lim) now hagree]
                exact hsub
  | .pnone :: rest, s, hstore, r, hr, hnotin, f, hf, d, v, lim, hfd, hextf, hcwlf => by
      rcases List.mem_cons.mp hf with he | htl
      · rw [he] at hfd; exact PyVal.noConfusion hfd
      · exact scan_not_sent_blocked ext oracle limits recips now rest s hstore r hr hnotin
          f htl d v lim hfd hextf hcwlf
  | .pbool b :: rest, s, hstore, r, hr, hnotin, f, hf, d, v, lim, hfd, hextf, hcwlf => by
      rcases List.mem_cons.mp hf with he | htl
      · rw [he] at hfd; exact PyVal.noConfusion hfd
      · exact scan_not_sent_blocked ext oracle limits recips now rest s hstore r hr hnotin
          f htl d v lim hfd hextf hcwlf
  | .pnum q :: rest, s, hstore, r, hr, hnotin, f, hf, d, v, lim, hfd, hextf, hcwlf => by
      rcases List.mem_cons.mp hf with he | htl
      · rw [he] at hfd; exact PyVal.noConfusion hfd
      · exact scan_not_sent_blocked ext oracle limits recips now rest s hstore r hr hnotin
          f htl d v lim hfd hextf hcwlf
  | .pstr str :: rest, s, hstore, r, hr, hnotin, f, hf, d, v, lim, hfd, hextf, hcwlf => by
      rcases List.mem_cons.mp hf with he | htl
      · rw [he] at hfd; exact PyVal.noConfusion hfd
      · exact scan_not_sent_blocked ext oracle limits recips now rest s hstore r hr hnotin
          f htl d v lim hfd hextf hcwlf
  | .plist l :: rest, s, hstore, r, hr, hnotin, f, hf, d, v, lim, hfd, hextf, hcwlf => by
      rcases List.mem_cons.mp hf with he | htl
      · rw [he] at hfd; exact PyVal.noConfusion hfd
      · exact scan_not_sent_blocked ext oracle limits recips now rest s hstore r hr hnotin
          f htl d v lim hfd hextf hcwlf

theorem scan_inert (ext : PyVal → Option ℚ) (oracle : String → Bool) (limits : List Limit)
    (recips : List Recipient) (now : ℚ) :
    ∀ (records : List PyVal) (s : SState),
      (∀ r ∈ recips, (s.cooldowns.lookup r.name).isSome = true) →
      (∀ f ∈ records, ∀ (d : List (String × PyVal)) (v : ℚ) (lim : Limit),
        f = PyVal.pdict d → ext f = some v → checkWeatherLimit limits v = some lim →
        ∀ r ∈ recips, sentPred oracle (limitMessage lim) (limitCooldown lim) now s r = false) →
      checkForecastData ext oracle limits recips now records s = (s, [], true)
  | [], _, _, _ => rfl
  | .pdict d0 :: rest, s, hstore, hblocked => by
      have hbtail := fun f hf => hblocked f (List.mem_cons_of_mem _ hf)
      cases hext : ext (.pdict d0) with
      | none =>
          rw [scan_cons_noval ext oracle limits recips now hext]
          exact scan_inert ext oracle limits recips now rest s hstore hbtail
      | some v0 =>
          cases hcwl : checkWeatherLimit limits v0 with
          | none =>
              rw [scan_cons_noband ext oracle limits recips now hext hcwl]
              exact scan_inert ext oracle limits recips now rest s hstore hbtail
          | some lim0 =>
              have hloop := sendLoop_inert oracle (limitMessage lim0) (limitCooldown lim0) now
                recips s hstore
                (hblocked (.pdict d0) (List.mem_cons_self _ rest) d0 v0 lim0 rfl hext hcwl)
              have hok : (sendLoop oracle (limitMessage lim0) (limitCooldown lim0) now recips
                  s).2.2 = true := by rw [hloop]
              rw [scan_cons_trigger ext oracle limits recips now hext hcwl hok, hloop]
              have hrec := scan_inert ext oracle limits recips now rest s hstore hbtail
              simp [hrec]
  | .pnone :: rest, s, hstore, hblocked => by
      exact scan_inert ext oracle limits recips now rest s hstore
        (fun f hf => hblocked f (List.mem_cons_of_mem _ hf))
  | .pbool b :: rest, s, hstore, hblocked => by
      exact scan_inert ext oracle limits recips now rest s hstore
        (fun f hf => hblocked f (List.mem_cons_of_mem _ hf))
  | .pnum q :: rest, s, hstore, hblocked => by
      exact scan_inert ext oracle limits recips now rest s hstore
        (fun f hf => hblocked f (List.mem_cons_of_mem _ hf))
  | .pstr str :: rest, s, hstore, hblocked => by
      exact scan_inert ext oracle limits recips now rest s hstore
        (fun f hf => hblocked f (List.mem_cons_of_mem _ hf))
  | .plist l :: rest, s, hstore, hblocked => by
      exact scan_inert ext oracle limits recips now rest s hstore
        (fun f hf => hblocked f (List.mem_cons_of_mem _ hf))

/-- C7: running the scan twice over the same forecast records at the
same instant, from any state whose cooldown store covers the recipients,
sends zero additional notifications on the second run — every recipient
is suppressed by the cooldown check or by the rate limiter — and both
runs complete.  The notification service is a fixed per-recipient
success oracle, so this covers in particular a first run all of whose
sends succeeded. -/
theorem scan_idempotent (ext : PyVal → Option ℚ) (oracle : String → Bool)
    (limits : List Limit) (recips : List Recipient) (now : ℚ) (records : List PyVal)
    (s0 : SState)
    (hstore : ∀ r ∈ recips, (s0.cooldowns.lookup r.name).isSome = true) :
    (checkForecastData ext oracle limits recips now records
        (checkForecastData ext oracle limits recips now records s0).1).2.1 = [] ∧
    (checkForecastData ext oracle limits recips now records
        (checkForecastData ext oracle limits recips now records s0).1).2.2 = true ∧
    (checkForecastData ext oracle limits recips now records s0).2.2 = true := by
  have hstore1 : ∀ r ∈ recips,
      (((checkForecastData ext oracle limits recips now records
        s0).1).cooldowns.lookup r.name).isSome = true := by
    intro r hr
    rw [scan_keys ext oracle limits recips now records s0 r.name]
    exact hstore r hr
  have hblocked : ∀ f ∈ records, ∀ (d : List (String × PyVal)) (v : ℚ) (lim : Limit),
      f = PyVal.pdict d → ext f = some v → checkWeatherLimit limits v = some lim →
      ∀ r ∈ recips, sentPred oracle (limitMessage lim) (limitCooldown lim) now
        (checkForecastData ext oracle limits recips now records s0).1 r = false := by
    intro f hf d v lim hfd hextf hcwlf r hr
    by_cases hsent :
        r.name ∈ (checkForecastData ext oracle limits recips now records s0).2.1
    · have hln := scan_sent_lastNotif ext oracle limits recips now records s0 r.name hsent
      have hcr : checkRateLimit
          ((checkForecastData ext oracle limits recips now records
            s0).1).last_notification_time r.name now = false := by
        unfold checkRateLimit
        rw [hln]
        refine decide_eq_false ?_
        rw [sub_self]
        norm_num [minNotificationInterval]
      unfold sentPred
      rw [hcr]
      simp
    · have hagree := scan_frame ext oracle limits recips now records s0 r.name hsent
      rw [sentPred_congr oracle (limitMessage lim) (limitCooldown lim) now hagree]
      exact scan_not_sent_blocked ext oracle limits recips now records s0 hstore r hr hsent
        f hf d v lim hfd hextf hcwlf
  have hres := scan_inert ext oracle limits recips now records
    (checkForecastData ext oracle limits recips now records s0).1 hstore1 hblocked
  exact ⟨by rw [hres], by rw [hres],
    scan_ok ext oracle limits recips now records s0 hstore⟩

/-- Witness for C7: a concrete scan (one band `0 ≤ v < 10` with a one
hour cooldown, one recipient, one record with value 7) run twice at the
same instant sends nothing on the second run. -/
theorem scan_idempotent_witness :
    (checkForecastData witnessExtract (fun _ => true)
        [⟨some 0, some 10, some "low", some 3600⟩] [⟨"bob", true, .pstr "18:15"⟩] 1000
        [.pdict [("precipitation", .pnum 7)]]
        (checkForecastData witnessExtract (fun _ => true)
          [⟨some 0, some 10, some "low", some 3600⟩] [⟨"bob", true, .pstr "18:15"⟩] 1000
          [.pdict [("precipitation", .pnum 7)]] ⟨[("bob", [])], []⟩).1).2.1 = [] ∧
    (checkForecastData witnessExtract (fun _ => true)
        [⟨some 0, some 10, some "low", some 3600⟩] [⟨"bob", true, .pstr "18:15"⟩] 1000
        [.pdict [("precipitation", .pnum 7)]]
        (checkForecastData witnessExtract (fun _ => true)
          [⟨some 0, some 10, some "low", some 3600⟩] [⟨"bob", true, .pstr "18:15"⟩] 1000
          [.pdict [("precipitation", .pnum 7)]] ⟨[("bob", [])], []⟩).1).2.2 = true ∧
    (checkForecastData witnessExtract (fun _ => true)
        [⟨some 0, some 10, some "low", some 3600⟩] [⟨"bob", true, .pstr "18:15"⟩] 1000
        [.pdict [("precipitation", .pnum 7)]] ⟨[("bob", [])], []⟩).2.2 = true :=
  scan_idempotent witnessExtract (fun _ => true)
    [⟨some 0, some 10, some "low", some 3600⟩] [⟨"bob", true, .pstr "18:15"⟩] 1000
    [.pdict [("precipitation", .pnum 7)]] ⟨[("bob", [])], []⟩ (by decide)
